import Mathlib

/-!
# Verification of the Pathfinder context/path navigation engine

A shallow embedding, in Lean 4, of the engine implemented in
`src/pathfinder/core/models.py` and `src/pathfinder/core/managers.py`,
followed by theorems settling the frozen claims about it.

Modelling conventions:

* Python `dict[str, X]` becomes an association list `List (String × X)`;
  `d[k] = v` becomes `insertA` (replace the first binding of `k`, else append)
  and `d.get(k)` becomes `List.lookup`, both preserving insertion order as
  CPython dicts do.
* Python `set[str]` becomes a `List String` maintained duplicate-free by the
  mutators (`add`), compared by membership; `set(xs)` becomes `List.dedup`.
* Timestamps (`time.time()`) and the float-valued scores are modelled over `ℚ`;
  every call of `time.time()` is threaded through as an explicit `now : ℚ`
  argument.  None of the verified properties depends on float rounding.
* Node `properties` values (`Any` in Python) are modelled as strings: the code
  under verification only ever reads them whole (`get('name')`, `get('title')`)
  and passes them through serialization verbatim.
* Dataclass construction always runs `__post_init__`; the functions
  `mkContextualNode`, `mkContext`, `mkPathRoute` bundle the field assignment
  together with the `__post_init__` body, and every construction site in the
  embedding goes through them, as every `cls(...)` call in the source does.
* In-place mutation of a method's `self` becomes a function returning the
  updated value; the manager (below) threads a store of nodes explicitly to
  model Python object identity where the claims are about aliasing.
-/

/-- `models.py` lines 11-17: the `PriorityType` enum. -/
inductive PriorityType where
  | RECENCY
  | FREQUENCY
  | RELEVANCE
  | CENTRALITY
  | CUSTOM
deriving DecidableEq, Repr

/-- Serialization of the enum by name (`self.priority_scheme.name`). -/
def PriorityType.pname : PriorityType → String
  | .RECENCY => "RECENCY"
  | .FREQUENCY => "FREQUENCY"
  | .RELEVANCE => "RELEVANCE"
  | .CENTRALITY => "CENTRALITY"
  | .CUSTOM => "CUSTOM"

/-- `PriorityType[name]`: lookup of an enum member by name; `none` models the
`KeyError` Python raises on an unknown name. -/
def PriorityType.ofName (s : String) : Option PriorityType :=
  if s = "RECENCY" then some .RECENCY
  else if s = "FREQUENCY" then some .FREQUENCY
  else if s = "RELEVANCE" then some .RELEVANCE
  else if s = "CENTRALITY" then some .CENTRALITY
  else if s = "CUSTOM" then some .CUSTOM
  else none

/-- Insert-or-replace on an association list: `d[k] = v` on a CPython dict
(replaces in place if the key is bound, else appends, preserving order). -/
def insertA {α : Type} (m : List (String × α)) (k : String) (v : α) :
    List (String × α) :=
  match m with
  | [] => [(k, v)]
  | (k', v') :: rest => if k' = k then (k, v) :: rest else (k', v') :: insertA rest k v

/-- `models.py` lines 20-47: the `ContextualNode` dataclass fields. -/
structure ContextualNode where
  uuid : String
  labels : List String
  properties : List (String × String)
  access_count : Nat
  last_accessed : ℚ
  relevance_score : ℚ
  notes : List String
  flags : List String
  priority : ℚ
  alt_text : String
deriving DecidableEq, Repr

/-- `models.py` lines 83-87, `get_display_name`:
`properties.get('name', properties.get('title', f"{':'.join(labels)}({uuid[:8]}...)"))`. -/
def ContextualNode.get_display_name (n : ContextualNode) : String :=
  match List.lookup "name" n.properties with
  | some v => v
  | none =>
    match List.lookup "title" n.properties with
    | some v => v
    | none => String.intercalate ":" n.labels ++ "(" ++ n.uuid.take 8 ++ "...)"

/-- `models.py` lines 65-73, `update_priority(scheme)` (default `RECENCY`):
sets `priority` from the scheme's source field; any other scheme (CENTRALITY,
CUSTOM) falls through the `if/elif` chain and leaves the node unchanged
("Other schemes would be implemented here"). -/
def ContextualNode.update_priority (n : ContextualNode) (scheme : PriorityType) :
    ContextualNode :=
  match scheme with
  | .RECENCY => { n with priority := n.last_accessed }
  | .FREQUENCY => { n with priority := (n.access_count : ℚ) }
  | .RELEVANCE => { n with priority := n.relevance_score }
  | _ => n

/-- `models.py` lines 49-57, `__post_init__` fused with field construction:
runs `update_priority()` (default scheme `RECENCY`), then derives `alt_text`
as `f"{name}: {label_text} node"` when it was not supplied. -/
def mkContextualNode (uuid : String) (labels : List String)
    (properties : List (String × String)) (access_count : Nat)
    (last_accessed relevance_score : ℚ) (notes flags : List String)
    (priority : ℚ) (alt_text : String) : ContextualNode :=
  let n : ContextualNode :=
    ⟨uuid, labels, properties, access_count, last_accessed, relevance_score,
     notes, flags, priority, alt_text⟩
  let n := n.update_priority .RECENCY
  if n.alt_text = "" then
    { n with alt_text :=
        n.get_display_name ++ ": " ++ String.intercalate ", " n.labels ++ " node" }
  else n

/-- `models.py` lines 59-63, `access()`: bump `access_count`, refresh
`last_accessed` to the current time, recompute priority under the default
(`RECENCY`) scheme. -/
def ContextualNode.access (n : ContextualNode) (now : ℚ) : ContextualNode :=
  let n := { n with access_count := n.access_count + 1, last_accessed := now }
  n.update_priority .RECENCY

/-- `models.py` lines 75-77, `add_note`: append to the notes list. -/
def ContextualNode.add_note (n : ContextualNode) (note : String) : ContextualNode :=
  { n with notes := n.notes ++ [note] }

/-- `models.py` lines 79-81, `add_flag`: `set.add` — a no-op when the flag is
already present. -/
def ContextualNode.add_flag (n : ContextualNode) (flag : String) : ContextualNode :=
  if flag ∈ n.flags then n else { n with flags := n.flags ++ [flag] }

/-- The dictionary shape produced by `ContextualNode.to_dict` (the `metadata`
sub-dict is flattened into fields; `flags` is `list(self.flags)`). -/
structure NodeDict where
  uuid : String
  labels : List String
  properties : List (String × String)
  access_count : Nat
  last_accessed : ℚ
  relevance_score : ℚ
  notes : List String
  flags : List String
  priority : ℚ
  alt_text : String
deriving DecidableEq, Repr

/-- `models.py` lines 89-104, `ContextualNode.to_dict`. -/
def ContextualNode.to_dict (n : ContextualNode) : NodeDict :=
  ⟨n.uuid, n.labels, n.properties, n.access_count, n.last_accessed,
   n.relevance_score, n.notes, n.flags, n.priority, n.alt_text⟩

/-- `models.py` lines 106-121, `ContextualNode.from_dict`: reconstructs via the
dataclass constructor (so `__post_init__` runs, overwriting `priority` with the
`RECENCY` value and regenerating empty `alt_text`), then assigns
`node.flags = set(data['metadata']['flags'])` after construction. -/
def ContextualNode.from_dict (d : NodeDict) : ContextualNode :=
  let node := mkContextualNode d.uuid d.labels d.properties d.access_count
    d.last_accessed d.relevance_score d.notes [] d.priority d.alt_text
  { node with flags := d.flags.dedup }

/-- One edge record appended by `add_relationship`:
`{'id': ..., 'target': ..., 'properties': ..., 'alt_text': ...}`. -/
structure EdgeRecord where
  id : String
  target : String
  properties : List (String × String)
  alt_text : String
deriving DecidableEq, Repr

/-- `models.py` lines 129-162: the `Context` dataclass fields.  The
`custom_priority_function : Optional[Callable]` field is a function value; the
code under verification never invokes it, only stores it. -/
structure Context where
  id : String
  name : String
  description : String
  nodes : List (String × ContextualNode)
  relationships : List (String × List (String × List EdgeRecord))
  focus_nodes : List String
  created_at : ℚ
  last_accessed : ℚ
  priority_scheme : PriorityType
  custom_priority_function : Option (ContextualNode → ℚ)
  tags : List String
  accessibility_description : String

/-- The description text generated by `Context.__post_init__` (lines 164-170). -/
def Context.describe0 (c : Context) : String :=
  "Context: " ++ c.name ++ ". " ++ c.description ++ ". Contains " ++
    toString c.nodes.length ++ " nodes with " ++ toString c.focus_nodes.length ++
    " focus nodes."

/-- `models.py` lines 164-170, `Context.__post_init__` fused with field
construction: derives the accessibility description when not supplied. -/
def mkContext (id name description : String)
    (nodes : List (String × ContextualNode))
    (relationships : List (String × List (String × List EdgeRecord)))
    (focus_nodes : List String) (created_at last_accessed : ℚ)
    (priority_scheme : PriorityType)
    (custom_priority_function : Option (ContextualNode → ℚ))
    (tags : List String) (accessibility_description : String) : Context :=
  let c : Context :=
    ⟨id, name, description, nodes, relationships, focus_nodes, created_at,
     last_accessed, priority_scheme, custom_priority_function, tags,
     accessibility_description⟩
  if c.accessibility_description = "" then
    { c with accessibility_description := c.describe0 }
  else c

/-- `models.py` lines 227-241, `update_accessibility_description`: rebuilds the
description from the current node/focus counts and the display names of the
focus nodes that resolve. -/
def Context.update_accessibility_description (c : Context) : Context :=
  let focus_names := c.focus_nodes.filterMap fun nid =>
    (List.lookup nid c.nodes).map ContextualNode.get_display_name
  let focus_text := if focus_names.isEmpty then "none"
    else String.intercalate ", " focus_names
  { c with accessibility_description :=
      "Context: " ++ c.name ++ ". " ++ c.description ++ ". Contains " ++
        toString c.nodes.length ++ " nodes with " ++
        toString c.focus_nodes.length ++ " focus nodes. Focus nodes: " ++
        focus_text ++ "." }

/-- `models.py` lines 172-177, `Context.add_node`: `self.nodes[node.uuid] = node`
then refresh the description. -/
def Context.add_node (c : Context) (node : ContextualNode) : Context :=
  Context.update_accessibility_description
    { c with nodes := insertA c.nodes node.uuid node }

/-- `models.py` lines 202-212, `_generate_relationship_alt_text`. -/
def Context.genRelAltText (c : Context) (source_id target_id rel_type : String) :
    String :=
  match List.lookup source_id c.nodes, List.lookup target_id c.nodes with
  | some source_node, some target_node =>
      source_node.get_display_name ++ " " ++ rel_type ++ " " ++
        target_node.get_display_name
  | _, _ => "Relationship of type " ++ rel_type

/-- `models.py` lines 179-200, `add_relationship`: appends an edge record under
`relationships[source_id][rel_type]`.  `fresh_id` stands for the
`str(uuid.uuid4())` generated when `rel_id` is falsy (`None` or `""`);
`properties or {}` defaults a missing properties dict. -/
def Context.add_relationship (c : Context) (source_id target_id rel_type : String)
    (properties : Option (List (String × String))) (rel_id : Option String)
    (fresh_id : String) : Context :=
  let byType := (List.lookup source_id c.relationships).getD []
  let lst := (List.lookup rel_type byType).getD []
  let rid := match rel_id with
    | some r => if r = "" then fresh_id else r
    | none => fresh_id
  let record : EdgeRecord :=
    ⟨rid, target_id, properties.getD [],
     c.genRelAltText source_id target_id rel_type⟩
  let rels := insertA c.relationships source_id
    (insertA byType rel_type (lst ++ [record]))
  Context.update_accessibility_description { c with relationships := rels }

/-- `models.py` lines 214-220, `Context.get_node`: look up; if found, mutate
the node via `access()` (the dict entry is the same object, so the map reflects
the mutation) and refresh `self.last_accessed`; if absent, return `None` and
leave everything untouched. -/
def Context.get_node (c : Context) (now : ℚ) (node_id : String) :
    Option ContextualNode × Context :=
  match List.lookup node_id c.nodes with
  | none => (none, c)
  | some node =>
    let node := node.access now
    (some node,
     { c with nodes := insertA c.nodes node_id node, last_accessed := now })

/-- `models.py` lines 222-225, `set_focus`: replace the focus list wholesale
and refresh the description. -/
def Context.set_focus (c : Context) (node_ids : List String) : Context :=
  Context.update_accessibility_description { c with focus_nodes := node_ids }

/-- Stable insertion into a descending-by-priority list: the ordering step of
`heapq.nlargest(n, ..., key=lambda x: x.priority)`, which is documented as
equivalent to `sorted(..., key=..., reverse=True)[:n]`. -/
def insertDesc (x : ContextualNode) : List ContextualNode → List ContextualNode
  | [] => [x]
  | y :: ys => if y.priority < x.priority then x :: y :: ys else y :: insertDesc x ys

/-- `sorted(..., key=lambda x: x.priority, reverse=True)`: stable descending
sort by priority. -/
def sortByPriorityDesc (l : List ContextualNode) : List ContextualNode :=
  l.foldr insertDesc []

/-- `models.py` lines 243-250, `top_nodes`: recompute every node's priority
under the context's scheme (mutating the stored nodes), then
`heapq.nlargest(n, ..., key=priority)` — the n largest by priority in
descending order. -/
def Context.top_nodes (c : Context) (n : Nat) : List ContextualNode × Context :=
  let updated := c.nodes.map fun kv =>
    (kv.1, kv.2.update_priority c.priority_scheme)
  let c := { c with nodes := updated }
  ((sortByPriorityDesc (updated.map Prod.snd)).take n, c)

/-- `models.py` lines 252-258, `set_priority_scheme`: store the scheme; CUSTOM
without a function raises `ValueError`. -/
def Context.set_priority_scheme (c : Context) (scheme : PriorityType)
    (custom_function : Option (ContextualNode → ℚ)) : Except String Context :=
  if scheme = .CUSTOM then
    match custom_function with
    | none => .error "Custom priority scheme requires a custom function"
    | some f => .ok { c with priority_scheme := scheme,
                             custom_priority_function := some f }
  else .ok { c with priority_scheme := scheme }

/-- The dictionary shape produced by `Context.to_dict`. -/
structure ContextDict where
  id : String
  name : String
  description : String
  nodes : List (String × NodeDict)
  relationships : List (String × List (String × List EdgeRecord))
  focus_nodes : List String
  created_at : ℚ
  last_accessed : ℚ
  priority_scheme : String
  tags : List String
  accessibility_description : String
deriving DecidableEq, Repr

/-- `models.py` lines 260-274, `Context.to_dict`: nodes serialized pointwise,
relationships passed through, the scheme serialized by name, tags as a list.
The `custom_priority_function` is not serialized. -/
def Context.to_dict (c : Context) : ContextDict :=
  ⟨c.id, c.name, c.description, c.nodes.map (fun kv => (kv.1, kv.2.to_dict)),
   c.relationships, c.focus_nodes, c.created_at, c.last_accessed,
   c.priority_scheme.pname, c.tags, c.accessibility_description⟩

/-- `models.py` lines 276-298, `Context.from_dict`: constructs the dataclass
(with empty nodes/relationships, so `__post_init__` sees them empty), looks the
scheme up by name (`none` models the `KeyError` on an unknown name), then
fills in nodes (pointwise `ContextualNode.from_dict`, insertion order kept) and
relationships after construction. -/
def Context.from_dict (d : ContextDict) : Option Context :=
  match PriorityType.ofName d.priority_scheme with
  | none => none
  | some scheme =>
    let c := mkContext d.id d.name d.description [] [] d.focus_nodes
      d.created_at d.last_accessed scheme none d.tags.dedup
      d.accessibility_description
    some { c with
      nodes := d.nodes.map fun kv => (kv.1, ContextualNode.from_dict kv.2),
      relationships := d.relationships }

/-- `models.py` lines 305-323: the `ContextTransition` dataclass. -/
structure ContextTransition where
  from_context_id : Option String
  to_context_id : String
  timestamp : ℚ
  reason : String
  carried_nodes : List String
  notes : String
deriving DecidableEq, Repr

/-- `models.py` lines 325-334, `ContextTransition.to_dict` — a field-for-field
copy (modelled by the same record shape). -/
def ContextTransition.to_dict (t : ContextTransition) : ContextTransition := t

/-- `models.py` lines 336-346, `ContextTransition.from_dict`. -/
def ContextTransition.from_dict (t : ContextTransition) : ContextTransition := t

/-- `models.py` lines 349-374: the `PathRoute` dataclass fields. -/
structure PathRoute where
  id : String
  name : String
  description : String
  transitions : List ContextTransition
  created_at : ℚ
  last_updated : ℚ
  tags : List String
  accessibility_description : String
deriving DecidableEq, Repr

/-- The description text generated by `PathRoute.__post_init__` and by
`add_transition` (lines 376-393; both use the same format string). -/
def PathRoute.describe (p : PathRoute) : String :=
  "Path: " ++ p.name ++ ". " ++ p.description ++ ". Contains " ++
    toString p.transitions.length ++ " transitions."

/-- `models.py` lines 376-382, `PathRoute.__post_init__` fused with field
construction. -/
def mkPathRoute (id name description : String)
    (transitions : List ContextTransition) (created_at last_updated : ℚ)
    (tags : List String) (accessibility_description : String) : PathRoute :=
  let p : PathRoute :=
    ⟨id, name, description, transitions, created_at, last_updated, tags,
     accessibility_description⟩
  if p.accessibility_description = "" then
    { p with accessibility_description := p.describe }
  else p

/-- `models.py` lines 384-393, `add_transition`: append, refresh
`last_updated`, regenerate the description. -/
def PathRoute.add_transition (p : PathRoute) (now : ℚ) (t : ContextTransition) :
    PathRoute :=
  let p := { p with transitions := p.transitions ++ [t], last_updated := now }
  { p with accessibility_description := p.describe }

/-- The dictionary shape produced by `PathRoute.to_dict`. -/
structure PathDict where
  id : String
  name : String
  description : String
  transitions : List ContextTransition
  created_at : ℚ
  last_updated : ℚ
  tags : List String
  accessibility_description : String
deriving DecidableEq, Repr

/-- `models.py` lines 395-406, `PathRoute.to_dict`. -/
def PathRoute.to_dict (p : PathRoute) : PathDict :=
  ⟨p.id, p.name, p.description, p.transitions.map ContextTransition.to_dict,
   p.created_at, p.last_updated, p.tags, p.accessibility_description⟩

/-- `models.py` lines 408-425, `PathRoute.from_dict`: constructs the dataclass
(so `__post_init__` runs with zero transitions), then appends each transition. -/
def PathRoute.from_dict (d : PathDict) : PathRoute :=
  let p := mkPathRoute d.id d.name d.description [] d.created_at d.last_updated
    d.tags.dedup d.accessibility_description
  { p with transitions :=
      p.transitions ++ d.transitions.map ContextTransition.from_dict }

/-!
## The manager layer (`managers.py`)

Python nodes are heap objects: a `ContextualNode` stored in a context's node
map can be *the same object* as one stored in another context's map (the
"carry" behaviour of `switch_context`).  To model that identity, the manager
embedding threads an explicit object store: `heap : List ContextualNode`, with
a node's address (its index in the store) playing the role of its Python
identity.  A manager-level context (`Mgr.Context`) therefore holds addresses
in its node map where the dataclass holds objects; every other field is as in
the value-level `Context` above.  Paths and contexts themselves are only ever
reached through the manager's own maps in the code under verification, so
re-reading those maps models the live objects exactly.
-/

namespace Mgr

/-- `models.py` `Context`, at the manager level: `nodes` maps a node id to the
address of the node object in the manager's store. -/
structure Context where
  id : String
  name : String
  description : String
  nodes : List (String × Nat)
  relationships : List (String × List (String × List EdgeRecord))
  focus_nodes : List String
  created_at : ℚ
  last_accessed : ℚ
  priority_scheme : PriorityType
  custom_priority_function : Option (ContextualNode → ℚ)
  tags : List String
  accessibility_description : String

/-- `Context.__post_init__` description text (counts only). -/
def Context.describe0 (c : Context) : String :=
  "Context: " ++ c.name ++ ". " ++ c.description ++ ". Contains " ++
    toString c.nodes.length ++ " nodes with " ++ toString c.focus_nodes.length ++
    " focus nodes."

/-- Manager-level `Context` construction with `__post_init__`, as used by
`create_context` (all collection fields default to empty). -/
def mkContext (id name description : String) (created_at last_accessed : ℚ) :
    Context :=
  let c : Context :=
    ⟨id, name, description, [], [], [], created_at, last_accessed,
     .RECENCY, none, [], ""⟩
  if c.accessibility_description = "" then
    { c with accessibility_description := c.describe0 }
  else c

/-- `update_accessibility_description`, reading focus-node display names
through the store. -/
def Context.update_accessibility_description (heap : List ContextualNode)
    (c : Context) : Context :=
  let focus_names := c.focus_nodes.filterMap fun nid =>
    (List.lookup nid c.nodes).bind fun addr =>
      (heap.get? addr).map ContextualNode.get_display_name
  let focus_text := if focus_names.isEmpty then "none"
    else String.intercalate ", " focus_names
  { c with accessibility_description :=
      "Context: " ++ c.name ++ ". " ++ c.description ++ ". Contains " ++
        toString c.nodes.length ++ " nodes with " ++
        toString c.focus_nodes.length ++ " focus nodes. Focus nodes: " ++
        focus_text ++ "." }

/-- `Context.add_node` at the manager level: `self.nodes[node.uuid] = node`,
keyed by the uuid of the object at `addr`.  The address is always valid when
called from the manager (it came out of `get_node`); an invalid address leaves
the context unchanged. -/
def Context.add_node (heap : List ContextualNode) (c : Context) (addr : Nat) :
    Context :=
  match heap.get? addr with
  | some node =>
      Context.update_accessibility_description heap
        { c with nodes := insertA c.nodes node.uuid addr }
  | none => c

/-- `Context.get_node` at the manager level: resolve the id to an address,
mutate the node object in the store via `access()`, refresh the context's
`last_accessed`, and hand the address (the object reference) back.  A dangling
address cannot arise from the manager's own operations; it is treated as a
missing node. -/
def Context.get_node (heap : List ContextualNode) (c : Context) (now : ℚ)
    (node_id : String) : Option Nat × List ContextualNode × Context :=
  match List.lookup node_id c.nodes with
  | none => (none, heap, c)
  | some addr =>
    match heap.get? addr with
    | none => (none, heap, c)
    | some node =>
        (some addr, heap.set addr (node.access now),
         { c with last_accessed := now })

/-- `managers.py` lines 27-42, the `ContextManager` state (the storage
directory and module generator are I/O concerns outside this embedding; the
persisted-state loading is the identity on a fresh directory). -/
structure ContextManager where
  heap : List ContextualNode
  contexts : List (String × Context)
  paths : List (String × PathRoute)
  current_context_id : Option String
  active_path_id : Option String

/-- `managers.py` lines 44-50, `create_context`: store a fresh empty context
under a generated id (`fresh_id` stands for `str(uuid.uuid4())`). -/
def create_context (s : ContextManager) (fresh_id name description : String)
    (created_at last_accessed : ℚ) : ContextManager :=
  let c := mkContext fresh_id name description created_at last_accessed
  { s with contexts := insertA s.contexts fresh_id c }

/-- `managers.py` lines 86-92, `create_path`. -/
def create_path (s : ContextManager) (fresh_id name description : String)
    (created_at last_updated : ℚ) : ContextManager :=
  let p := mkPathRoute fresh_id name description [] created_at last_updated [] ""
  { s with paths := insertA s.paths fresh_id p }

/-- `managers.py` lines 94-99, `start_recording_path`: `ValueError` on an
unknown path id, else set the active path. -/
def start_recording_path (s : ContextManager) (path_id : String) :
    Except String ContextManager :=
  if (List.lookup path_id s.paths).isNone then
    .error ("Path " ++ path_id ++ " does not exist")
  else .ok { s with active_path_id := some path_id }

/-- `managers.py` lines 101-104, `stop_recording_path`. -/
def stop_recording_path (s : ContextManager) : ContextManager :=
  { s with active_path_id := none }

/-- The carry loop body of `switch_context` (lines 72-76): for one node id,
`node = self.contexts[self.current_context_id].get_node(node_id)`, and if
found, `self.contexts[context_id].add_node(node)`.  Both context objects are
re-read through the manager's map, as the attribute accesses in the source do. -/
def carryStep (cur context_id : String) (now : ℚ) (s : ContextManager)
    (node_id : String) : ContextManager :=
  match List.lookup cur s.contexts with
  | none => s
  | some curCtx =>
    let r := Context.get_node s.heap curCtx now node_id
    let s := { s with heap := r.2.1, contexts := insertA s.contexts cur r.2.2 }
    match r.1 with
    | none => s
    | some addr =>
      match List.lookup context_id s.contexts with
      | none => s
      | some tgt =>
        let tgt := Context.add_node s.heap tgt addr
        { s with contexts := insertA s.contexts context_id tgt }

/-- Lines 66-68 of `switch_context`: `if self.active_path_id and
self.active_path_id in self.paths`, append the transition to the active path
(Python string truthiness: an empty-string id would be falsy). -/
def recordIfActive (s : ContextManager) (now : ℚ)
    (transition : ContextTransition) : ContextManager :=
  match s.active_path_id with
  | some pid =>
    if pid ≠ "" then
      match List.lookup pid s.paths with
      | some p =>
        let p := p.add_transition now transition
        { s with paths := insertA s.paths pid p }
      | none => s
    else s
  | none => s

/-- Lines 70-76 of `switch_context`: `if carry_nodes and
self.current_context_id and self.current_context_id in self.contexts`, run the
carry loop over `carry_nodes`. -/
def carryPhase (s : ContextManager) (now : ℚ) (context_id : String)
    (carry_nodes : List String) : ContextManager :=
  if carry_nodes.isEmpty then s
  else
    match s.current_context_id with
    | some cur =>
      if cur ≠ "" then
        if (List.lookup cur s.contexts).isSome then
          carry_nodes.foldl (carryStep cur context_id now) s
        else s
      else s
    | none => s

/-- Lines 78-84 of `switch_context`: set `current_context_id` and refresh the
target context's `last_accessed`. -/
def finishSwitch (s : ContextManager) (now : ℚ) (context_id : String) :
    ContextManager :=
  match List.lookup context_id s.contexts with
  | some tgt =>
    { s with current_context_id := some context_id,
             contexts := insertA s.contexts context_id
               { tgt with last_accessed := now } }
  | none => { s with current_context_id := some context_id }

/-- `managers.py` lines 52-84, `switch_context`:
1. `ValueError` if `context_id` is unknown (before any mutation);
2. build the transition from the current context, reason and carry list;
3. the transition-recording phase (`recordIfActive`);
4. the node-carrying phase (`carryPhase`);
5. set `current_context_id` and refresh the target's `last_accessed`
   (`finishSwitch`). -/
def switch_context (s : ContextManager) (now : ℚ) (context_id reason : String)
    (carry_nodes : List String) : Except String ContextManager :=
  if (List.lookup context_id s.contexts).isNone then
    .error ("Context " ++ context_id ++ " does not exist")
  else
    let transition : ContextTransition :=
      ⟨s.current_context_id, context_id, now, reason, carry_nodes, ""⟩
    let s := recordIfActive s now transition
    let s := carryPhase s now context_id carry_nodes
    .ok (finishSwitch s now context_id)

/-- The loop of `managers.py` lines 118-128, `replay_path`.  Python's
`for transition in path.transitions` holds an index into the *live* list
object `path = self.paths[path_id]`; each pass re-checks the index against the
list's current length, so the list is re-read from the manager's path map (the
same object) at every step.  `fuel` bounds the number of iterations the model
is willing to unfold; `none` means the bound was exhausted with the loop still
running.  The callback (a pure observer in the claims considered here) and the
`time.sleep(0.5)` pacing are not modelled; `clock i` is the `time.time()`
value inside the `i`-th switch. -/
def replayLoop (clock : Nat → ℚ) (path_id : String) :
    ContextManager → Nat → Nat → Option (Except String ContextManager)
  | _, _, 0 => none
  | s, i, fuel + 1 =>
    match List.lookup path_id s.paths with
    | none => some (.ok s)
    | some p =>
      if h : i < p.transitions.length then
        let t := p.transitions.get ⟨i, h⟩
        match switch_context s (clock i) t.to_context_id
            ("Replaying path " ++ p.name) [] with
        | .error e => some (.error e)
        | .ok s2 => replayLoop clock path_id s2 (i + 1) fuel
      else some (.ok s)

/-- `managers.py` lines 106-128, `replay_path`: `ValueError` on an unknown
path id, then the replay loop from index 0. -/
def replay_path (clock : Nat → ℚ) (s : ContextManager) (path_id : String)
    (fuel : Nat) : Option (Except String ContextManager) :=
  if (List.lookup path_id s.paths).isNone then
    some (.error ("Path " ++ path_id ++ " does not exist"))
  else replayLoop clock path_id s 0 fuel

/-- One detected cycle record (`managers.py` lines 184-189). -/
structure CycleRec where
  path_id : String
  path_name : String
  cycle_length : Nat
  contexts : List String
deriving DecidableEq, Repr

/-- `context_sequence[i:i+length] == context_sequence[i+length:i+length*2]`. -/
def sliceRepeats (seq : List String) (i L : Nat) : Bool :=
  ((seq.drop i).take L) == ((seq.drop (i + L)).take L)

/-- The inner scan of the cycle detector: the first start index `i` in
`range(len(seq) - 2*length + 1)` at which the window repeats (the `break`
after recording makes only the first hit count).  `range(k)` on a negative
`k` is empty, which truncated `Nat` subtraction reproduces exactly. -/
def findCycleStart (seq : List String) (L : Nat) : Option Nat :=
  (List.range (seq.length + 1 - 2 * L)).find? fun i => sliceRepeats seq i L

/-- The cycle scan over one context-id sequence: window lengths
`range(2, min(10, len(seq) // 2 + 1))`, one recorded cycle per window length
at the first repeating start index. -/
def cyclesOfSeq (pid pname : String) (seq : List String) : List CycleRec :=
  (List.range' 2 (min 10 (seq.length / 2 + 1) - 2)).filterMap fun L =>
    (findCycleStart seq L).map fun i =>
      ⟨pid, pname, L, (seq.drop i).take L⟩

/-- `managers.py` lines 178-191, the per-path cycle detection: the scan above
applied to the path's sequence of `to_context_id`s. -/
def pathCycles (p : PathRoute) : List CycleRec :=
  cyclesOfSeq p.id p.name (p.transitions.map ContextTransition.to_context_id)

/-- The `cycles` component of `analyze_context_patterns` (`managers.py` lines
139-197): `none` models the early `{"message": "No paths available..."}`
return when no paths are stored; otherwise the concatenation of each stored
path's detected cycles, in path-map order.  The `common_transitions` and
`frequent_contexts` aggregates of the same method are independent of the
cycles list and are not needed by any claim. -/
def analyze_cycles (s : ContextManager) : Option (List CycleRec) :=
  if s.paths.isEmpty then none
  else some ((s.paths.map Prod.snd).flatMap pathCycles)

/-- The numeric part of the dictionary returned by `compare_contexts`. -/
structure CompareResult where
  common_nodes : Nat
  only_in_ctx1 : Nat
  only_in_ctx2 : Nat
  similarity_score : ℚ
deriving DecidableEq, Repr

/-- The priority-refresh pass of `compare_contexts` (lines 378-384): for each
common node id, `node1.update_priority(ctx1.priority_scheme)` then
`node2.update_priority(ctx2.priority_scheme)`, mutating the stored node
objects.  Python iterates the common-id *set* in unspecified order; the model
fixes the first-occurrence order of `ctx1`'s keys, which the claims (about the
similarity score, which is computed from the key sets alone) do not depend on. -/
def refreshCommon (ctx1 ctx2 : Context) (commonList : List String)
    (heap : List ContextualNode) : List ContextualNode :=
  commonList.foldl
    (fun h k =>
      let h := match List.lookup k ctx1.nodes with
        | some a1 =>
          match h.get? a1 with
          | some n1 => h.set a1 (n1.update_priority ctx1.priority_scheme)
          | none => h
        | none => h
      match List.lookup k ctx2.nodes with
      | some a2 =>
        match h.get? a2 with
        | some n2 => h.set a2 (n2.update_priority ctx2.priority_scheme)
        | none => h
      | none => h)
    heap

/-- `managers.py` lines 355-426, `compare_contexts`: `ValueError` if either id
is unknown; node-id set intersection and differences; the priority-refresh
pass over common nodes; `similarity_score = len(common) / max(1, len(union))`.
The `priority_differences` list and the text summary are derived output built
from the same data and drive no claim. -/
def compare_contexts (s : ContextManager) (context_id_1 context_id_2 : String) :
    Except String (CompareResult × ContextManager) :=
  match List.lookup context_id_1 s.contexts, List.lookup context_id_2 s.contexts with
  | some ctx1, some ctx2 =>
    let nodes1 : Finset String := (ctx1.nodes.map Prod.fst).toFinset
    let nodes2 : Finset String := (ctx2.nodes.map Prod.fst).toFinset
    let common := nodes1 ∩ nodes2
    let commonList := ((ctx1.nodes.map Prod.fst).dedup).filter
      fun k => k ∈ ctx2.nodes.map Prod.fst
    let heap := refreshCommon ctx1 ctx2 commonList s.heap
    let result : CompareResult :=
      ⟨common.card, (nodes1 \ nodes2).card, (nodes2 \ nodes1).card,
       (common.card : ℚ) / ((max 1 (nodes1 ∪ nodes2).card : Nat) : ℚ)⟩
    .ok (result, { s with heap := heap })
  | _, _ => .error "One or both contexts do not exist"

end Mgr

/-!
## Generic association-list lemmas
-/

theorem lookup_insertA_self {α : Type} (m : List (String × α)) (k : String)
    (v : α) : List.lookup k (insertA m k v) = some v := by
  induction m with
  | nil => simp [insertA, List.lookup]
  | cons kv rest ih =>
    obtain ⟨k', v'⟩ := kv
    by_cases h : k' = k
    · simp [insertA, h, List.lookup]
    · have hbe : (k == k') = false := beq_eq_false_iff_ne.mpr fun hh => h hh.symm
      simp [insertA, h, List.lookup, hbe, ih]

theorem lookup_insertA_ne {α : Type} (m : List (String × α)) (k k' : String)
    (v : α) (h : k' ≠ k) :
    List.lookup k' (insertA m k v) = List.lookup k' m := by
  have hbe : (k' == k) = false := beq_eq_false_iff_ne.mpr h
  induction m with
  | nil => simp [insertA, List.lookup, hbe]
  | cons kv rest ih =>
    obtain ⟨k₀, v₀⟩ := kv
    by_cases h0 : k₀ = k
    · subst h0
      simp [insertA, List.lookup, hbe]
    · simp only [insertA, if_neg h0, List.lookup]
      rw [ih]

theorem lookup_insertA_isSome {α : Type} (m : List (String × α)) (k k' : String)
    (v : α) (hk : (List.lookup k' m).isSome) :
    (List.lookup k' (insertA m k v)).isSome := by
  by_cases h : k' = k
  · subst h; simp [lookup_insertA_self]
  · rw [lookup_insertA_ne m k k' v h]; exact hk

/-!
## Claim C6 — FREQUENCY priority counts accesses
-/

/-- `access()` called once on each time in `ts`, in order. -/
def accessTimes : List ℚ → ContextualNode → ContextualNode
  | [], n => n
  | t :: ts, n => accessTimes ts (n.access t)

theorem access_access_count (n : ContextualNode) (now : ℚ) :
    (n.access now).access_count = n.access_count + 1 := by
  simp [ContextualNode.access, ContextualNode.update_priority]

theorem accessTimes_access_count (ts : List ℚ) (n : ContextualNode) :
    (accessTimes ts n).access_count = n.access_count + ts.length := by
  induction ts generalizing n with
  | nil => simp [accessTimes]
  | cons t ts ih =>
    simp only [accessTimes, List.length_cons, ih, access_access_count]
    omega

/-- C6: a node created with `access_count` 0, after exactly `N` calls of
`access()` (at arbitrary times), has priority `N` once recomputed under the
FREQUENCY scheme — both the stored `priority` field and the recomputation's
result equal `N`. -/
theorem frequency_priority_counts_accesses (ts : List ℚ) (n : ContextualNode)
    (h : n.access_count = 0) :
    ((accessTimes ts n).update_priority .FREQUENCY).priority = (ts.length : ℚ) := by
  simp [ContextualNode.update_priority, accessTimes_access_count, h]

/-- C6 witness: a freshly constructed node accessed 3 times has FREQUENCY
priority 3. -/
theorem frequency_priority_counts_accesses_witness :
    (mkContextualNode "u1" ["Dog"] [] 0 0 0 [] [] 0 "").access_count = 0 ∧
    ((accessTimes [1, 2, 3] (mkContextualNode "u1" ["Dog"] [] 0 0 0 [] [] 0 "")).update_priority
        .FREQUENCY).priority = ((3 : Nat) : ℚ) :=
  ⟨rfl, frequency_priority_counts_accesses [1, 2, 3] _ rfl⟩

/-!
## Claim C5 — `get_node` records an access
-/

/-- C5 (amended): for an id bound in the context's node map, `get_node`
returns the node after `access()`: `access_count` incremented by exactly 1,
`last_accessed` refreshed to now, and priority recomputed under the *default
RECENCY scheme* (so it becomes the fresh `last_accessed`), irrespective of the
context's scheme or of whichever scheme last computed the stored priority; the
context's `last_accessed` is refreshed and its map rebound at that id.  For an
unbound id it returns `none` and mutates neither the context nor any node. -/
theorem get_node_access_semantics (c : Context) (now : ℚ) (node_id : String) :
    (∀ node, List.lookup node_id c.nodes = some node →
      (c.get_node now node_id).1 = some (node.access now) ∧
      (node.access now).access_count = node.access_count + 1 ∧
      (node.access now).last_accessed = now ∧
      (node.access now).priority = now ∧
      ((c.get_node now node_id).2).last_accessed = now ∧
      ((c.get_node now node_id).2).nodes = insertA c.nodes node_id (node.access now)) ∧
    (List.lookup node_id c.nodes = none → c.get_node now node_id = (none, c)) := by
  constructor
  · intro node hlk
    simp [Context.get_node, hlk, ContextualNode.access, ContextualNode.update_priority]
  · intro hlk
    simp [Context.get_node, hlk]

/-- C5 witness: a concrete hit and a concrete miss. -/
theorem get_node_access_semantics_witness :
    (List.lookup "u1" ([("u1", mkContextualNode "u1" [] [] 4 7 0 [] [] 0 "t")] :
        List (String × ContextualNode)) =
      some (mkContextualNode "u1" [] [] 4 7 0 [] [] 0 "t")) ∧
    ((Context.mk "c" "C" "d" [("u1", mkContextualNode "u1" [] [] 4 7 0 [] [] 0 "t")]
        [] [] 0 0 .RECENCY none [] "desc").get_node 9 "u1").1 =
      some ((mkContextualNode "u1" [] [] 4 7 0 [] [] 0 "t").access 9) ∧
    (((Context.mk "c" "C" "d" [("u1", mkContextualNode "u1" [] [] 4 7 0 [] [] 0 "t")]
        [] [] 0 0 .RECENCY none [] "desc").get_node 9 "u1").2).last_accessed = 9 := by
  refine ⟨rfl, ?_, ?_⟩
  · exact ((get_node_access_semantics
      (Context.mk "c" "C" "d" [("u1", mkContextualNode "u1" [] [] 4 7 0 [] [] 0 "t")]
        [] [] 0 0 .RECENCY none [] "desc") 9 "u1").1 _ rfl).1
  · exact ((get_node_access_semantics
      (Context.mk "c" "C" "d" [("u1", mkContextualNode "u1" [] [] 4 7 0 [] [] 0 "t")]
        [] [] 0 0 .RECENCY none [] "desc") 9 "u1").1 _ rfl).2.2.2.2.1

/-- C5 counterexample to the claim as stated: a node whose priority was last
computed under the FREQUENCY scheme (priority = access_count = 5).  `get_node`
returns it with priority 100 — the fresh `last_accessed` (RECENCY) value — and
not 6, the value a recomputation under the node's own last-used scheme
(FREQUENCY) would give. -/
theorem get_node_last_scheme_cx :
    ((Context.mk "c" "C" "d"
        [("u1", (mkContextualNode "u1" [] [] 5 2 0 [] [] 0 "t").update_priority .FREQUENCY)]
        [] [] 0 0 .FREQUENCY none [] "desc").get_node 100 "u1").1.map
        ContextualNode.priority = some 100 ∧
    ((Context.mk "c" "C" "d"
        [("u1", (mkContextualNode "u1" [] [] 5 2 0 [] [] 0 "t").update_priority .FREQUENCY)]
        [] [] 0 0 .FREQUENCY none [] "desc").get_node 100 "u1").1.map
        (fun n => (n.update_priority .FREQUENCY).priority) = some 6 ∧
    (100 : ℚ) ≠ 6 := by
  refine ⟨rfl, rfl, by norm_num⟩

/-!
## Claim C8 — CENTRALITY is a silent no-op, not an error
-/

/-- C8 (amended): invoking priority recomputation under the CENTRALITY scheme
— directly, or on every node via `top_nodes` on a context whose scheme is
CENTRALITY — completes without error and leaves every node's priority (indeed
the whole node) unchanged; no `UnsupportedScheme` failure exists in the code. -/
theorem centrality_recompute_is_noop (node : ContextualNode) (c : Context)
    (k : Nat) (hs : c.priority_scheme = .CENTRALITY) :
    node.update_priority .CENTRALITY = node ∧
    ((c.top_nodes k).2).nodes = c.nodes ∧
    (c.top_nodes k).1 = (sortByPriorityDesc (c.nodes.map Prod.snd)).take k := by
  have hid : (fun kv : String × ContextualNode =>
      (kv.1, kv.2.update_priority .CENTRALITY)) = id := by
    funext kv; rfl
  refine ⟨rfl, ?_, ?_⟩
  · simp [Context.top_nodes, hs, hid]
  · simp [Context.top_nodes, hs, hid]

/-- C8 witness: concrete node and concrete CENTRALITY context. -/
theorem centrality_recompute_is_noop_witness :
    (Context.mk "c" "C" "d" [("u1", mkContextualNode "u1" [] [] 0 3 0 [] [] 0 "t")]
        [] [] 0 0 .CENTRALITY none [] "desc").priority_scheme = .CENTRALITY ∧
    (mkContextualNode "u1" [] [] 0 3 0 [] [] 0 "t").update_priority .CENTRALITY =
      mkContextualNode "u1" [] [] 0 3 0 [] [] 0 "t" ∧
    (((Context.mk "c" "C" "d" [("u1", mkContextualNode "u1" [] [] 0 3 0 [] [] 0 "t")]
        [] [] 0 0 .CENTRALITY none [] "desc").top_nodes 1).2).nodes =
      [("u1", mkContextualNode "u1" [] [] 0 3 0 [] [] 0 "t")] :=
  ⟨rfl,
   (centrality_recompute_is_noop (mkContextualNode "u1" [] [] 0 3 0 [] [] 0 "t")
      (Context.mk "c" "C" "d" [("u1", mkContextualNode "u1" [] [] 0 3 0 [] [] 0 "t")]
        [] [] 0 0 .CENTRALITY none [] "desc") 1 rfl).1,
   (centrality_recompute_is_noop (mkContextualNode "u1" [] [] 0 3 0 [] [] 0 "t")
      (Context.mk "c" "C" "d" [("u1", mkContextualNode "u1" [] [] 0 3 0 [] [] 0 "t")]
        [] [] 0 0 .CENTRALITY none [] "desc") 1 rfl).2.1⟩

/-- C8 counterexample to the claim as stated: on a concrete node with priority
7, recomputation under CENTRALITY completes and returns the node unchanged
(the `if/elif` chain in `update_priority` has no CENTRALITY branch and no
`raise`), and `top_nodes` on a CENTRALITY context completes, returning the
node rather than failing. -/
theorem centrality_no_error_cx :
    (ContextualNode.mk "u1" [] [] 0 3 0 [] [] 7 "t").update_priority .CENTRALITY =
      ContextualNode.mk "u1" [] [] 0 3 0 [] [] 7 "t" ∧
    ((Context.mk "c" "C" "d" [("u1", ContextualNode.mk "u1" [] [] 0 3 0 [] [] 7 "t")]
        [] [] 0 0 .CENTRALITY none [] "desc").top_nodes 1).1 =
      [ContextualNode.mk "u1" [] [] 0 3 0 [] [] 7 "t"] := by
  constructor
  · rfl
  · rfl

/-!
## Claim C4 — cycle-detection examples
-/

theorem cyclesOfSeq_abab (pid pname : String) :
    Mgr.cyclesOfSeq pid pname ["a", "b", "a", "b"] =
      ([⟨pid, pname, 2, ["a", "b"]⟩] : List Mgr.CycleRec) := rfl

theorem cyclesOfSeq_abc (pid pname : String) :
    Mgr.cyclesOfSeq pid pname ["a", "b", "c"] = [] := rfl

theorem cyclesOfSeq_aa (pid pname : String) :
    Mgr.cyclesOfSeq pid pname ["a", "a"] = [] := rfl

/-- The single path with to-context-id sequence `["a","b","a","b"]` used to
exercise the cycle detector. -/
def pathAbab : PathRoute :=
  ⟨"p1", "P", "d",
   [⟨none, "a", 0, "r", [], ""⟩, ⟨some "a", "b", 1, "r", [], ""⟩,
    ⟨some "b", "a", 2, "r", [], ""⟩, ⟨some "a", "b", 3, "r", [], ""⟩],
   0, 0, [], "x"⟩

/-- A path with to-context-id sequence `["a","b","c"]`. -/
def pathAbc : PathRoute :=
  ⟨"p2", "Q", "d",
   [⟨none, "a", 0, "r", [], ""⟩, ⟨some "a", "b", 1, "r", [], ""⟩,
    ⟨some "b", "c", 2, "r", [], ""⟩],
   0, 0, [], "x"⟩

/-- A path with to-context-id sequence `["a","a"]`. -/
def pathAa : PathRoute :=
  ⟨"p3", "R", "d",
   [⟨none, "a", 0, "r", [], ""⟩, ⟨some "a", "a", 1, "r", [], ""⟩],
   0, 0, [], "x"⟩

/-- C4 (amended): on a manager holding exactly one path, cycle detection
reports, for to-context-id sequence `["a","b","a","b"]`, exactly one cycle of
length 2 with contexts `["a","b"]`; for `["a","b","c"]`, no cycle; and for
`["a","a"]`, *no cycle at all* — the scanned window lengths start at 2
(`range(2, min(10, len(S)//2 + 1))`), so a length-1 repetition is never
examined. -/
theorem cycle_detection_examples (s : Mgr.ContextManager) (pid : String)
    (p : PathRoute) (hp : s.paths = [(pid, p)]) :
    (p.transitions.map ContextTransition.to_context_id = ["a", "b", "a", "b"] →
      Mgr.analyze_cycles s = some [⟨p.id, p.name, 2, ["a", "b"]⟩]) ∧
    (p.transitions.map ContextTransition.to_context_id = ["a", "b", "c"] →
      Mgr.analyze_cycles s = some []) ∧
    (p.transitions.map ContextTransition.to_context_id = ["a", "a"] →
      Mgr.analyze_cycles s = some []) := by
  refine ⟨fun h => ?_, fun h => ?_, fun h => ?_⟩ <;>
    simp [Mgr.analyze_cycles, hp, Mgr.pathCycles, h, cyclesOfSeq_abab,
      cyclesOfSeq_abc, cyclesOfSeq_aa]

/-- C4 witness: two of the concrete single-path managers. -/
theorem cycle_detection_examples_witness :
    Mgr.analyze_cycles ⟨[], [], [("p1", pathAbab)], none, none⟩ =
      some [⟨"p1", "P", 2, ["a", "b"]⟩] ∧
    Mgr.analyze_cycles ⟨[], [], [("p2", pathAbc)], none, none⟩ = some [] :=
  ⟨(cycle_detection_examples ⟨[], [], [("p1", pathAbab)], none, none⟩
      "p1" pathAbab rfl).1 rfl,
   (cycle_detection_examples ⟨[], [], [("p2", pathAbc)], none, none⟩
      "p2" pathAbc rfl).2.1 rfl⟩

/-- C4 counterexample to the claim as stated: a stored path whose
to-context-id sequence is `["a","a"]` yields an empty cycles list — not a
cycle of length 1 with contexts `["a"]`. -/
theorem cycle_detection_len1_cx :
    Mgr.analyze_cycles ⟨[], [], [("p3", pathAa)], none, none⟩ = some [] := rfl

/-!
## `switch_context` phase lemmas
-/

theorem carryStep_preserves (cur cid : String) (now : ℚ)
    (s : Mgr.ContextManager) (x : String) :
    (Mgr.carryStep cur cid now s x).paths = s.paths ∧
    (Mgr.carryStep cur cid now s x).active_path_id = s.active_path_id ∧
    (Mgr.carryStep cur cid now s x).current_context_id = s.current_context_id := by
  unfold Mgr.carryStep
  rcases List.lookup cur s.contexts with _ | curCtx
  · exact ⟨rfl, rfl, rfl⟩
  · dsimp only
    rcases (Mgr.Context.get_node s.heap curCtx now x).1 with _ | addr
    · exact ⟨rfl, rfl, rfl⟩
    · dsimp only
      rcases List.lookup cid (insertA s.contexts cur
          (Mgr.Context.get_node s.heap curCtx now x).2.2) with _ | tgt
      · exact ⟨rfl, rfl, rfl⟩
      · exact ⟨rfl, rfl, rfl⟩

theorem foldl_carrySteps_preserves (cur cid : String) (now : ℚ)
    (l : List String) (s : Mgr.ContextManager) :
    (l.foldl (Mgr.carryStep cur cid now) s).paths = s.paths ∧
    (l.foldl (Mgr.carryStep cur cid now) s).active_path_id = s.active_path_id ∧
    (l.foldl (Mgr.carryStep cur cid now) s).current_context_id =
      s.current_context_id := by
  induction l generalizing s with
  | nil => exact ⟨rfl, rfl, rfl⟩
  | cons x xs ih =>
    simp only [List.foldl_cons]
    obtain ⟨h1, h2, h3⟩ := ih (Mgr.carryStep cur cid now s x)
    obtain ⟨g1, g2, g3⟩ := carryStep_preserves cur cid now s x
    exact ⟨h1.trans g1, h2.trans g2, h3.trans g3⟩

theorem carryPhase_preserves (s : Mgr.ContextManager) (now : ℚ)
    (cid : String) (carry : List String) :
    (Mgr.carryPhase s now cid carry).paths = s.paths ∧
    (Mgr.carryPhase s now cid carry).active_path_id = s.active_path_id ∧
    (Mgr.carryPhase s now cid carry).current_context_id =
      s.current_context_id := by
  unfold Mgr.carryPhase
  split
  · exact ⟨rfl, rfl, rfl⟩
  · split
    · rename_i cur heq
      split
      · split
        · exact foldl_carrySteps_preserves cur cid now carry s
        · exact ⟨rfl, rfl, rfl⟩
      · exact ⟨rfl, rfl, rfl⟩
    · exact ⟨rfl, rfl, rfl⟩

theorem finishSwitch_preserves (s : Mgr.ContextManager) (now : ℚ)
    (cid : String) :
    (Mgr.finishSwitch s now cid).paths = s.paths ∧
    (Mgr.finishSwitch s now cid).active_path_id = s.active_path_id ∧
    (Mgr.finishSwitch s now cid).current_context_id = some cid := by
  unfold Mgr.finishSwitch
  split
  · exact ⟨rfl, rfl, rfl⟩
  · exact ⟨rfl, rfl, rfl⟩

theorem recordIfActive_preserves (s : Mgr.ContextManager) (now : ℚ)
    (tr : ContextTransition) :
    (Mgr.recordIfActive s now tr).contexts = s.contexts ∧
    (Mgr.recordIfActive s now tr).heap = s.heap ∧
    (Mgr.recordIfActive s now tr).active_path_id = s.active_path_id ∧
    (Mgr.recordIfActive s now tr).current_context_id = s.current_context_id := by
  unfold Mgr.recordIfActive
  split
  · split
    · split
      · exact ⟨rfl, rfl, rfl, rfl⟩
      · exact ⟨rfl, rfl, rfl, rfl⟩
    · exact ⟨rfl, rfl, rfl, rfl⟩
  · exact ⟨rfl, rfl, rfl, rfl⟩

theorem recordIfActive_paths_lookup (s : Mgr.ContextManager) (now : ℚ)
    (tr : ContextTransition) (pid : String) :
    List.lookup pid (Mgr.recordIfActive s now tr).paths =
      (List.lookup pid s.paths).map fun p =>
        if s.active_path_id = some pid ∧ pid ≠ "" then p.add_transition now tr
        else p := by
  unfold Mgr.recordIfActive
  cases ha : s.active_path_id with
  | none => cases List.lookup pid s.paths <;> simp
  | some apid =>
    dsimp only
    by_cases hp : apid = ""
    · subst hp
      rw [if_neg (not_not_intro rfl)]
      cases List.lookup pid s.paths with
      | none => rfl
      | some q =>
        dsimp only [Option.map]
        rw [if_neg]
        rintro ⟨hc, hne⟩
        exact hne (Option.some_injective _ hc).symm
    · rw [if_pos hp]
      cases hl : List.lookup apid s.paths with
      | none =>
        dsimp only
        by_cases he : apid = pid
        · subst he
          rw [hl]; rfl
        · cases List.lookup pid s.paths with
          | none => rfl
          | some q =>
            dsimp only [Option.map]
            rw [if_neg]
            rintro ⟨hc, -⟩
            exact he (Option.some_injective _ hc)
      | some p =>
        dsimp only
        by_cases he : apid = pid
        · subst he
          rw [lookup_insertA_self, hl]
          dsimp only [Option.map]
          rw [if_pos ⟨rfl, hp⟩]
        · rw [lookup_insertA_ne _ _ _ _ fun hh => he hh.symm]
          cases List.lookup pid s.paths with
          | none => rfl
          | some q =>
            dsimp only [Option.map]
            rw [if_neg]
            rintro ⟨hc, -⟩
            exact he (Option.some_injective _ hc)

theorem recordIfActive_idle (s : Mgr.ContextManager) (now : ℚ)
    (tr : ContextTransition) (h : s.active_path_id = none) :
    Mgr.recordIfActive s now tr = s := by
  unfold Mgr.recordIfActive
  rw [h]

/-- `switch_context` on a known target id: the composition of its three
phases, as an equation. -/
theorem switch_context_ok_eq (s : Mgr.ContextManager) (now : ℚ)
    (cid reason : String) (carry : List String)
    (h : (List.lookup cid s.contexts).isSome) :
    Mgr.switch_context s now cid reason carry =
      .ok (Mgr.finishSwitch
        (Mgr.carryPhase
          (Mgr.recordIfActive s now
            ⟨s.current_context_id, cid, now, reason, carry, ""⟩)
          now cid carry)
        now cid) := by
  obtain ⟨c, hc⟩ := Option.isSome_iff_exists.mp h
  unfold Mgr.switch_context
  rw [hc]
  rfl

/-!
## Claim C2 — the recording invariant
-/

/-- C2: on a successful `switch_context` to a known context id (with recording
state not naming the impossible empty-string path id), every stored path's
entry is unchanged unless it is the path recording is active on, in which case
it receives exactly the one built transition appended; when recording is idle
the whole path map is untouched; and `add_transition` appends exactly one
transition. -/
theorem recording_invariant (s : Mgr.ContextManager) (now : ℚ)
    (cid reason : String) (carry : List String) (s' : Mgr.ContextManager)
    (hknown : (List.lookup cid s.contexts).isSome)
    (hne : s.active_path_id ≠ some "")
    (hok : Mgr.switch_context s now cid reason carry = .ok s') :
    (∀ pid, List.lookup pid s'.paths =
      (List.lookup pid s.paths).map fun p =>
        if s.active_path_id = some pid then
          p.add_transition now ⟨s.current_context_id, cid, now, reason, carry, ""⟩
        else p) ∧
    (s.active_path_id = none → s'.paths = s.paths) ∧
    (∀ (p : PathRoute) (t : ContextTransition),
      (p.add_transition now t).transitions = p.transitions ++ [t]) := by
  have heq := switch_context_ok_eq s now cid reason carry hknown
  have hs' : s' = Mgr.finishSwitch
      (Mgr.carryPhase
        (Mgr.recordIfActive s now
          ⟨s.current_context_id, cid, now, reason, carry, ""⟩)
        now cid carry)
      now cid :=
    (Except.ok.inj (heq.symm.trans hok)).symm
  have hpaths : s'.paths = (Mgr.recordIfActive s now
      ⟨s.current_context_id, cid, now, reason, carry, ""⟩).paths := by
    rw [hs', (finishSwitch_preserves _ now cid).1,
      (carryPhase_preserves _ now cid carry).1]
  refine ⟨?_, ?_, ?_⟩
  · intro pid
    rw [hpaths, recordIfActive_paths_lookup]
    congr 1
    funext p
    by_cases hc : s.active_path_id = some pid
    · have hpe : pid ≠ "" := fun h0 => hne (h0 ▸ hc)
      rw [if_pos ⟨hc, hpe⟩, if_pos hc]
    · rw [if_neg fun hh => hc hh.1, if_neg hc]
  · intro hidle
    rw [hpaths, recordIfActive_idle _ _ _ hidle]
  · intro p t
    simp [PathRoute.add_transition]

/-- Fixture: two stored contexts, one stored path, recording active on it. -/
def ctxA : Mgr.Context := Mgr.mkContext "ca" "Alpha" "first" 0 0

/-- Fixture: second stored context. -/
def ctxB : Mgr.Context := Mgr.mkContext "cb" "Beta" "second" 0 0

/-- Fixture: an empty stored path. -/
def path0 : PathRoute := mkPathRoute "p" "Trail" "walk" [] 0 0 [] ""

/-- Fixture: a manager with recording active on `path0`. -/
def mgrRec : Mgr.ContextManager :=
  ⟨[], [("ca", ctxA), ("cb", ctxB)], [("p", path0)], none, some "p"⟩

/-- Extract the success state of a `switch_context` call. -/
def okPart : Except String Mgr.ContextManager → Option Mgr.ContextManager
  | .ok s => some s
  | .error _ => none

/-- C2 witness: switching while recording appends exactly the built transition
to the active path. -/
theorem recording_invariant_witness :
    (okPart (Mgr.switch_context mgrRec 5 "cb" "go" [])).map
        (fun s2 => List.lookup "p" s2.paths) =
      some (some (path0.add_transition 5 ⟨none, "cb", 5, "go", [], ""⟩)) := by
  cases hok : Mgr.switch_context mgrRec 5 "cb" "go" [] with
  | error e =>
    rw [switch_context_ok_eq mgrRec 5 "cb" "go" [] rfl] at hok
    cases hok
  | ok s2 =>
    have h := (recording_invariant mgrRec 5 "cb" "go" [] s2 rfl
      (by decide) hok).1 "p"
    simp only [okPart, Option.map]
    rw [h]
    rfl

/-!
## Claim C9 — `switch_context` fails exactly on unknown ids, atomically
-/

/-- C9: `switch_context` raises precisely when the target context id is not a
key of the stored contexts, and the existence check runs before any state is
built, so an erroring call yields no successor state — in this pure embedding
the caller keeps the original manager: no path gains a transition, no node is
carried, no context or `current_context_id` changes. -/
theorem switch_context_notfound_atomic (s : Mgr.ContextManager) (now : ℚ)
    (cid reason : String) (carry : List String) :
    ((List.lookup cid s.contexts = none) ↔
      Mgr.switch_context s now cid reason carry =
        .error ("Context " ++ cid ++ " does not exist")) ∧
    (okPart (Mgr.switch_context s now cid reason carry)).isSome =
      (List.lookup cid s.contexts).isSome := by
  constructor
  · constructor
    · intro h
      unfold Mgr.switch_context
      rw [h]
      rfl
    · intro h
      by_contra hne
      obtain ⟨c, hc⟩ := Option.ne_none_iff_exists'.mp hne
      rw [switch_context_ok_eq s now cid reason carry (by rw [hc]; rfl)] at h
      cases h
  · cases hc : List.lookup cid s.contexts with
    | none =>
      unfold Mgr.switch_context
      rw [hc]
      rfl
    | some c =>
      rw [switch_context_ok_eq s now cid reason carry (by rw [hc]; rfl)]
      rfl

/-- C9 witness: an unknown target errors with the exact message; a known
target succeeds. -/
theorem switch_context_notfound_atomic_witness :
    Mgr.switch_context mgrRec 5 "zz" "r" [] =
      .error ("Context " ++ "zz" ++ " does not exist") ∧
    (okPart (Mgr.switch_context mgrRec 5 "ca" "r" [])).isSome = true :=
  ⟨(switch_context_notfound_atomic mgrRec 5 "zz" "r" []).1.mp rfl,
   by rw [(switch_context_notfound_atomic mgrRec 5 "ca" "r" []).2]; rfl⟩

/-!
## Claim C7 — similarity score is the Jaccard index
-/

/-- C7: on two stored contexts, `compare_contexts` succeeds and its
`similarity_score` is `|K1 ∩ K2| / max(1, |K1 ∪ K2|)` over the node-id key
sets — the Jaccard index, with the `max 1` guard making it 0 when both sets
are empty; identical nonempty key sets score 1 and disjoint key sets score 0. -/
theorem similarity_is_jaccard (s : Mgr.ContextManager) (id1 id2 : String)
    (c1 c2 : Mgr.Context)
    (h1 : List.lookup id1 s.contexts = some c1)
    (h2 : List.lookup id2 s.contexts = some c2) :
    ∃ r s2, Mgr.compare_contexts s id1 id2 = .ok (r, s2) ∧
      r.similarity_score =
        ((((c1.nodes.map Prod.fst).toFinset ∩ (c2.nodes.map Prod.fst).toFinset).card : ℚ)) /
          (((max 1 ((c1.nodes.map Prod.fst).toFinset ∪ (c2.nodes.map Prod.fst).toFinset).card : Nat)) : ℚ) ∧
      ((c1.nodes.map Prod.fst).toFinset = (c2.nodes.map Prod.fst).toFinset →
        ((c1.nodes.map Prod.fst).toFinset).Nonempty → r.similarity_score = 1) ∧
      (Disjoint (c1.nodes.map Prod.fst).toFinset (c2.nodes.map Prod.fst).toFinset →
        r.similarity_score = 0) ∧
      ((c1.nodes.map Prod.fst).toFinset = ∅ → (c2.nodes.map Prod.fst).toFinset = ∅ →
        r.similarity_score = 0) := by
  refine ⟨⟨((c1.nodes.map Prod.fst).toFinset ∩ (c2.nodes.map Prod.fst).toFinset).card,
      ((c1.nodes.map Prod.fst).toFinset \ (c2.nodes.map Prod.fst).toFinset).card,
      ((c2.nodes.map Prod.fst).toFinset \ (c1.nodes.map Prod.fst).toFinset).card,
      (((c1.nodes.map Prod.fst).toFinset ∩ (c2.nodes.map Prod.fst).toFinset).card : ℚ) /
        (((max 1 ((c1.nodes.map Prod.fst).toFinset ∪ (c2.nodes.map Prod.fst).toFinset).card : Nat)) : ℚ)⟩,
    ⟨Mgr.refreshCommon c1 c2
        (((c1.nodes.map Prod.fst).dedup).filter fun k => k ∈ c2.nodes.map Prod.fst)
        s.heap,
      s.contexts, s.paths, s.current_context_id, s.active_path_id⟩,
    ?_, rfl, ?_, ?_, ?_⟩
  · unfold Mgr.compare_contexts
    rw [h1, h2]
  · intro hEq hne
    rw [← hEq]
    simp only [Finset.inter_self, Finset.union_self]
    have hc : 0 < (c1.nodes.map Prod.fst).toFinset.card := Finset.card_pos.mpr hne
    rw [Nat.max_eq_right hc]
    exact div_self (Nat.cast_ne_zero.mpr (Nat.pos_iff_ne_zero.mp hc))
  · intro hd
    rw [Finset.disjoint_iff_inter_eq_empty.mp hd]
    simp
  · intro he1 he2
    rw [he1, he2]
    simp

/-- Fixture: a shared node object for the comparison witness. -/
def nodeFix : ContextualNode := mkContextualNode "n1" [] [] 0 0 0 [] [] 0 ""

/-- Fixture: a context holding node id `n1` at address 0. -/
def ctxN1 : Mgr.Context :=
  ⟨"c1", "N1", "d", [("n1", 0)], [], [], 0, 0, .RECENCY, none, [], "x"⟩

/-- Fixture: a context holding node id `n1` at address 1. -/
def ctxN2 : Mgr.Context :=
  ⟨"c2", "N2", "d", [("n1", 1)], [], [], 0, 0, .RECENCY, none, [], "x"⟩

/-- Fixture: a manager holding the two contexts above. -/
def mgrCmp : Mgr.ContextManager :=
  ⟨[nodeFix, nodeFix], [("c1", ctxN1), ("c2", ctxN2)], [], none, none⟩

/-- Projection of the similarity score of a comparison result. -/
def cmpScore : Except String (Mgr.CompareResult × Mgr.ContextManager) → Option ℚ
  | .ok rs => some rs.1.similarity_score
  | .error _ => none

/-- C7 witness: two contexts with the identical singleton node-id set score 1. -/
theorem similarity_is_jaccard_witness :
    cmpScore (Mgr.compare_contexts mgrCmp "c1" "c2") = some 1 := by
  obtain ⟨r, s2, hok, hsc, hident, hdis, hemp⟩ :=
    similarity_is_jaccard mgrCmp "c1" "c2" ctxN1 ctxN2 rfl rfl
  rw [hok]
  exact congrArg some (hident (by decide) ⟨"n1", by decide⟩)

/-!
## Claim C3 — carried nodes are shared by reference

The address of a node in the manager's store is its Python object identity:
two contexts whose node maps bind an id to the *same address* hold the same
object, and a mutation through either is seen through both.
-/

/-- The address a context binds a node id to, read through the manager. -/
def nodeAddr (s : Mgr.ContextManager) (cid x : String) : Option Nat :=
  (List.lookup cid s.contexts).bind fun c => List.lookup x c.nodes

/-- The node value seen for id `x` through context `cid`. -/
def nodeView (s : Mgr.ContextManager) (cid x : String) : Option ContextualNode :=
  (nodeAddr s cid x).bind fun a => s.heap.get? a

/-- Mutating the node object at address `a` (e.g. `node.add_note(...)` on a
node obtained from either context): an update of the store cell. -/
def mutateNodeAt (s : Mgr.ContextManager) (a : Nat)
    (f : ContextualNode → ContextualNode) : Mgr.ContextManager :=
  match s.heap.get? a with
  | some n => { s with heap := s.heap.set a (f n) }
  | none => s

theorem mutateNodeAt_contexts (s : Mgr.ContextManager) (a : Nat)
    (f : ContextualNode → ContextualNode) :
    (mutateNodeAt s a f).contexts = s.contexts := by
  unfold mutateNodeAt
  split <;> rfl

theorem nodeAddr_mutate (s : Mgr.ContextManager) (a : Nat)
    (f : ContextualNode → ContextualNode) (cid x : String) :
    nodeAddr (mutateNodeAt s a f) cid x = nodeAddr s cid x := by
  unfold nodeAddr
  rw [mutateNodeAt_contexts]

theorem get?_set_self {α : Type} (l : List α) (i : Nat) (a : α)
    (h : i < l.length) : (l.set i a).get? i = some a := by
  induction l generalizing i with
  | nil => simp at h
  | cons y ys ih =>
    cases i with
    | zero => rfl
    | succ n => exact ih n (by simpa using h)

theorem access_uuid (n : ContextualNode) (now : ℚ) :
    (n.access now).uuid = n.uuid := rfl

theorem Mgr_get_node_spec (heap : List ContextualNode) (c : Mgr.Context)
    (now : ℚ) (x : String) (addr : Nat) (node : ContextualNode)
    (hx : List.lookup x c.nodes = some addr)
    (hn : heap.get? addr = some node) :
    Mgr.Context.get_node heap c now x =
      (some addr, heap.set addr (node.access now),
       { c with last_accessed := now }) := by
  unfold Mgr.Context.get_node
  rw [hx]
  dsimp only
  rw [hn]

theorem Mgr_add_node_nodes (heap : List ContextualNode) (c : Mgr.Context)
    (addr : Nat) (node : ContextualNode) (h : heap.get? addr = some node) :
    (Mgr.Context.add_node heap c addr).nodes = insertA c.nodes node.uuid addr := by
  unfold Mgr.Context.add_node
  rw [h]
  rfl

theorem finishSwitch_lookup_self (s : Mgr.ContextManager) (now : ℚ)
    (cid : String) (tgt : Mgr.Context)
    (h : List.lookup cid s.contexts = some tgt) :
    List.lookup cid (Mgr.finishSwitch s now cid).contexts =
      some { tgt with last_accessed := now } := by
  unfold Mgr.finishSwitch
  rw [h]
  exact lookup_insertA_self _ _ _

theorem finishSwitch_lookup_ne (s : Mgr.ContextManager) (now : ℚ)
    (cid pid : String) (h : pid ≠ cid) :
    List.lookup pid (Mgr.finishSwitch s now cid).contexts =
      List.lookup pid s.contexts := by
  unfold Mgr.finishSwitch
  cases hc : List.lookup cid s.contexts with
  | none => rfl
  | some tgt => exact lookup_insertA_ne _ _ _ _ h

theorem carryPhase_cons (s1 : Mgr.ContextManager) (now : ℚ) (tid : String)
    (x : String) (xs : List String) (cur : String)
    (hcur : s1.current_context_id = some cur) (hcne : cur ≠ "")
    (hk : (List.lookup cur s1.contexts).isSome) :
    Mgr.carryPhase s1 now tid (x :: xs) =
      (x :: xs).foldl (Mgr.carryStep cur tid now) s1 := by
  unfold Mgr.carryPhase
  rw [hcur]
  simp [hcne, hk]

/-- The carry loop body, on a resolvable node id, binds the node's id to its
existing address in the *target* context, and leaves it bound in the source. -/
theorem carryStep_carries (cur tid : String) (now : ℚ)
    (s1 : Mgr.ContextManager) (x : String) (csrc : Mgr.Context) (addr : Nat)
    (node : ContextualNode)
    (hsrc : List.lookup cur s1.contexts = some csrc)
    (hx : List.lookup x csrc.nodes = some addr)
    (hnode : s1.heap.get? addr = some node)
    (huuid : node.uuid = x)
    (htgt : (List.lookup tid s1.contexts).isSome) :
    ∃ ctgt', List.lookup tid (Mgr.carryStep cur tid now s1 x).contexts = some ctgt' ∧
      List.lookup x ctgt'.nodes = some addr ∧
      ∃ csrc', List.lookup cur (Mgr.carryStep cur tid now s1 x).contexts = some csrc' ∧
        List.lookup x csrc'.nodes = some addr := by
  obtain ⟨hlt, -⟩ := List.get?_eq_some.mp hnode
  have hset : (s1.heap.set addr (node.access now)).get? addr =
      some (node.access now) := get?_set_self _ _ _ hlt
  have hkey : (node.access now).uuid = x := (access_uuid node now).trans huuid
  unfold Mgr.carryStep
  rw [hsrc]
  dsimp only
  rw [Mgr_get_node_spec s1.heap csrc now x addr node hx hnode]
  dsimp only
  by_cases hct : tid = cur
  · subst hct
    rw [lookup_insertA_self]
    dsimp only
    refine ⟨_, lookup_insertA_self _ _ _, ?_, _, lookup_insertA_self _ _ _, ?_⟩ <;>
      · rw [Mgr_add_node_nodes _ _ _ _ hset, hkey]
        exact lookup_insertA_self _ _ _
  · obtain ⟨ctgt, hctgt⟩ := Option.isSome_iff_exists.mp htgt
    rw [lookup_insertA_ne _ _ _ _ hct, hctgt]
    dsimp only
    refine ⟨_, lookup_insertA_self _ _ _, ?_, ?_⟩
    · rw [Mgr_add_node_nodes _ _ _ _ hset, hkey]
      exact lookup_insertA_self _ _ _
    · refine ⟨{ csrc with last_accessed := now }, ?_, hx⟩
      rw [lookup_insertA_ne _ _ _ _ fun hh => hct hh.symm]
      exact lookup_insertA_self _ _ _

/-- C3: `switch_context(target, carry_nodes=[x])`, when `x` resolves in the
current context (to an address holding a node whose uuid is `x`, as every node
inserted via `add_node` is keyed), succeeds and leaves `x` bound in the target
context's node map **to the same address** as in the source context — the same
object, not a copy; consequently, after any mutation of that object (obtained
through either context), the node seen for `x` through the target and through
the source coincide. -/
theorem carry_shares_reference (s : Mgr.ContextManager) (now : ℚ)
    (cur tid reason x : String) (csrc : Mgr.Context) (addr : Nat)
    (node : ContextualNode)
    (hcur : s.current_context_id = some cur)
    (hcne : cur ≠ "")
    (hsrc : List.lookup cur s.contexts = some csrc)
    (hx : List.lookup x csrc.nodes = some addr)
    (hnode : s.heap.get? addr = some node)
    (huuid : node.uuid = x)
    (htgt : (List.lookup tid s.contexts).isSome) :
    ∃ s', Mgr.switch_context s now tid reason [x] = .ok s' ∧
      nodeAddr s' tid x = some addr ∧
      nodeAddr s' cur x = some addr ∧
      ∀ f, nodeView (mutateNodeAt s' addr f) tid x =
           nodeView (mutateNodeAt s' addr f) cur x := by
  obtain ⟨hc1, hh1, ha1, hcu1⟩ := recordIfActive_preserves s now
    ⟨s.current_context_id, tid, now, reason, [x], ""⟩
  have hcp : Mgr.carryPhase
      (Mgr.recordIfActive s now ⟨s.current_context_id, tid, now, reason, [x], ""⟩)
      now tid [x] =
      Mgr.carryStep cur tid now
        (Mgr.recordIfActive s now ⟨s.current_context_id, tid, now, reason, [x], ""⟩)
        x := by
    have h := carryPhase_cons
      (Mgr.recordIfActive s now ⟨s.current_context_id, tid, now, reason, [x], ""⟩)
      now tid x [] cur (hcu1.trans hcur) hcne (by rw [hc1, hsrc]; rfl)
    simpa using h
  obtain ⟨ctgt', hct, hctx, csrc', hcu, hcux⟩ :=
    carryStep_carries cur tid now
      (Mgr.recordIfActive s now ⟨s.current_context_id, tid, now, reason, [x], ""⟩)
      x csrc addr node (by rw [hc1]; exact hsrc) hx (by rw [hh1]; exact hnode)
      huuid (by rw [hc1]; exact htgt)
  have H1 : nodeAddr
      (Mgr.finishSwitch
        (Mgr.carryPhase
          (Mgr.recordIfActive s now ⟨s.current_context_id, tid, now, reason, [x], ""⟩)
          now tid [x])
        now tid) tid x = some addr := by
    unfold nodeAddr
    rw [hcp, finishSwitch_lookup_self _ now tid ctgt' hct]
    exact hctx
  have H2 : nodeAddr
      (Mgr.finishSwitch
        (Mgr.carryPhase
          (Mgr.recordIfActive s now ⟨s.current_context_id, tid, now, reason, [x], ""⟩)
          now tid [x])
        now tid) cur x = some addr := by
    by_cases hcc : cur = tid
    · rw [hcc]; exact H1
    · unfold nodeAddr
      rw [hcp, finishSwitch_lookup_ne _ now tid cur hcc, hcu]
      exact hcux
  refine ⟨_, switch_context_ok_eq s now tid reason [x] htgt, H1, H2, fun f => ?_⟩
  unfold nodeView
  rw [nodeAddr_mutate, nodeAddr_mutate, H1, H2]

/-- Fixture: the node carried in the C3 witness (uuid `n1`, stored at 0). -/
def nodeCarry : ContextualNode := mkContextualNode "n1" [] [] 0 0 0 [] [] 0 ""

/-- Fixture: source context binding `n1` to address 0. -/
def ctxSrc : Mgr.Context :=
  ⟨"c1", "Src", "d", [("n1", 0)], [], [], 0, 0, .RECENCY, none, [], "x"⟩

/-- Fixture: empty target context. -/
def ctxDst : Mgr.Context := Mgr.mkContext "c2" "Dst" "d" 0 0

/-- Fixture: a manager currently in `c1`, carrying into `c2`. -/
def mgrCarry : Mgr.ContextManager :=
  ⟨[nodeCarry], [("c1", ctxSrc), ("c2", ctxDst)], [], some "c1", none⟩

/-- C3 witness: after the concrete carry, both contexts bind `n1` to the
same address 0. -/
theorem carry_shares_reference_witness :
    (okPart (Mgr.switch_context mgrCarry 5 "c2" "carry" ["n1"])).map
        (fun s2 => (nodeAddr s2 "c2" "n1", nodeAddr s2 "c1" "n1")) =
      some (some 0, some 0) := by
  obtain ⟨s', hok, h1, h2, hf⟩ :=
    carry_shares_reference mgrCarry 5 "c1" "c2" "carry" "n1" ctxSrc 0 nodeCarry
      rfl (by decide) rfl rfl rfl rfl rfl
  rw [hok]
  simp only [okPart, Option.map]
  rw [h1, h2]

/-!
## Claim C10 — replay terminates, except on the active recording path
-/

/-- The intended effect of a replay: one `switch_context` per listed
transition, in order, at the clock of its step. -/
def switchSeq (clock : Nat → ℚ) (rsn : String) :
    Mgr.ContextManager → Nat → List ContextTransition →
      Except String Mgr.ContextManager
  | s, _, [] => .ok s
  | s, i, t :: ts =>
    match Mgr.switch_context s (clock i) t.to_context_id rsn [] with
    | .error e => .error e
    | .ok s2 => switchSeq clock rsn s2 (i + 1) ts

theorem carryPhase_nil (s : Mgr.ContextManager) (now : ℚ) (cid : String) :
    Mgr.carryPhase s now cid [] = s := rfl

theorem finishSwitch_keys (s : Mgr.ContextManager) (now : ℚ) (cid k : String) :
    (List.lookup k (Mgr.finishSwitch s now cid).contexts).isSome =
      (List.lookup k s.contexts).isSome := by
  unfold Mgr.finishSwitch
  cases hc : List.lookup cid s.contexts with
  | none => rfl
  | some tgt =>
    dsimp only
    by_cases hk : k = cid
    · subst hk
      rw [lookup_insertA_self, hc]
      rfl
    · rw [lookup_insertA_ne _ _ _ _ hk]

/-- A `switch_context` with an empty carry list, on a known target: it
succeeds, keeps the recording state, appends the built transition to the
active path (when recording) and to no other path, and does not change which
context ids exist. -/
theorem switch_nil_preserves (s : Mgr.ContextManager) (now : ℚ)
    (cid reason : String)
    (hknown : (List.lookup cid s.contexts).isSome) :
    ∃ s2, Mgr.switch_context s now cid reason [] = .ok s2 ∧
      s2.active_path_id = s.active_path_id ∧
      (∀ q, s.active_path_id ≠ some q →
        List.lookup q s2.paths = List.lookup q s.paths) ∧
      (∀ pid p, s.active_path_id = some pid → pid ≠ "" →
        List.lookup pid s.paths = some p →
        List.lookup pid s2.paths =
          some (p.add_transition now
            ⟨s.current_context_id, cid, now, reason, [], ""⟩)) ∧
      (∀ k, (List.lookup k s2.contexts).isSome =
        (List.lookup k s.contexts).isSome) := by
  refine ⟨_, switch_context_ok_eq s now cid reason [] hknown, ?_, ?_, ?_, ?_⟩
  · rw [(finishSwitch_preserves _ now cid).2.1,
      (carryPhase_preserves _ now cid []).2.1,
      (recordIfActive_preserves s now _).2.2.1]
  · intro q hq
    rw [(finishSwitch_preserves _ now cid).1,
      (carryPhase_preserves _ now cid []).1,
      recordIfActive_paths_lookup]
    cases List.lookup q s.paths with
    | none => rfl
    | some pq =>
      dsimp only [Option.map]
      rw [if_neg fun hh => hq hh.1]
  · intro pid p ha hne hp
    rw [(finishSwitch_preserves _ now cid).1,
      (carryPhase_preserves _ now cid []).1,
      recordIfActive_paths_lookup, hp]
    dsimp only [Option.map]
    rw [if_pos ⟨ha, hne⟩]
  · intro k
    rw [finishSwitch_keys, carryPhase_nil,
      (recordIfActive_preserves s now _).1]

theorem switchSeq_cons (clock : Nat → ℚ) (rsn : String)
    (s : Mgr.ContextManager) (i : Nat) (t : ContextTransition)
    (ts : List ContextTransition) :
    switchSeq clock rsn s i (t :: ts) =
      match Mgr.switch_context s (clock i) t.to_context_id rsn [] with
      | .error e => .error e
      | .ok s2 => switchSeq clock rsn s2 (i + 1) ts := rfl

/-- Replaying a path that is *not* the recording target: the loop walks the
original transition list, whose entry in the path map never changes, and so
equals the straight sequence of switches. -/
theorem replayLoop_inactive (clock : Nat → ℚ) (pid : String) (p : PathRoute) :
    ∀ (k i : Nat) (s : Mgr.ContextManager) (fuel : Nat),
      i + k = p.transitions.length →
      List.lookup pid s.paths = some p →
      s.active_path_id ≠ some pid →
      (∀ t ∈ p.transitions, (List.lookup t.to_context_id s.contexts).isSome) →
      k < fuel →
      Mgr.replayLoop clock pid s i fuel =
        some (switchSeq clock ("Replaying path " ++ p.name) s i
          (p.transitions.drop i)) := by
  intro k
  induction k with
  | zero =>
    intro i s fuel hik hp hact htos hfuel
    obtain ⟨f, rfl⟩ := Nat.exists_eq_succ_of_ne_zero (Nat.pos_iff_ne_zero.mp hfuel)
    have hlen : i = p.transitions.length := by omega
    unfold Mgr.replayLoop
    rw [hp]
    dsimp only
    rw [dif_neg (by omega)]
    rw [List.drop_eq_nil_of_le (by omega)]
    rfl
  | succ k ih =>
    intro i s fuel hik hp hact htos hfuel
    obtain ⟨f, rfl⟩ := Nat.exists_eq_succ_of_ne_zero
      (Nat.pos_iff_ne_zero.mp (Nat.lt_of_le_of_lt (Nat.zero_le _) hfuel))
    have hilt : i < p.transitions.length := by omega
    unfold Mgr.replayLoop
    rw [hp]
    dsimp only
    rw [dif_pos hilt]
    have hmem : p.transitions.get ⟨i, hilt⟩ ∈ p.transitions :=
      List.get_mem _ _ hilt
    obtain ⟨s2, hok, hact2, hq, hrec, hkeys⟩ :=
      switch_nil_preserves s (clock i) (p.transitions.get ⟨i, hilt⟩).to_context_id
        ("Replaying path " ++ p.name) (htos _ hmem)
    rw [hok]
    dsimp only
    have hp2 : List.lookup pid s2.paths = some p := by
      rw [hq pid hact]
      exact hp
    have htos2 : ∀ t ∈ p.transitions,
        (List.lookup t.to_context_id s2.contexts).isSome := by
      intro t ht
      rw [hkeys]
      exact htos t ht
    have hact2' : s2.active_path_id ≠ some pid := by
      rw [hact2]
      exact hact
    rw [ih (i + 1) s2 f (by omega) hp2 hact2' htos2 (by omega)]
    have hdrop : p.transitions.drop i =
        p.transitions.get ⟨i, hilt⟩ :: p.transitions.drop (i + 1) := by
      rw [List.get_eq_getElem]
      exact List.drop_eq_getElem_cons hilt
    rw [hdrop, switchSeq_cons, hok]

/-- The sequence of switches over known targets succeeds end to end. -/
theorem switchSeq_ok (clock : Nat → ℚ) (rsn : String) :
    ∀ (ts : List ContextTransition) (i : Nat) (s : Mgr.ContextManager),
      (∀ t ∈ ts, (List.lookup t.to_context_id s.contexts).isSome) →
      ∃ sfin, switchSeq clock rsn s i ts = .ok sfin := by
  intro ts
  induction ts with
  | nil => exact fun i s _ => ⟨s, rfl⟩
  | cons t ts ih =>
    intro i s htos
    obtain ⟨s2, hok, -, -, -, hkeys⟩ :=
      switch_nil_preserves s (clock i) t.to_context_id rsn
        (htos t (List.mem_cons_self t ts))
    have htos2 : ∀ u ∈ ts, (List.lookup u.to_context_id s2.contexts).isSome := by
      intro u hu
      rw [hkeys]
      exact htos u (List.mem_cons_of_mem t hu)
    obtain ⟨sfin, hfin⟩ := ih (i + 1) s2 htos2
    refine ⟨sfin, ?_⟩
    rw [switchSeq_cons, hok]
    dsimp only
    exact hfin

theorem add_transition_transitions (p : PathRoute) (now : ℚ)
    (t : ContextTransition) :
    (p.add_transition now t).transitions = p.transitions ++ [t] := rfl

/-- Replaying the path that recording is active on: every switch appends one
transition to the very list the loop is indexing, so the cursor never reaches
the end — the loop exhausts any fuel. -/
theorem replayLoop_active_diverges (clock : Nat → ℚ) (pid : String) :
    ∀ (fuel i : Nat) (s : Mgr.ContextManager) (p : PathRoute),
      List.lookup pid s.paths = some p →
      s.active_path_id = some pid →
      pid ≠ "" →
      i < p.transitions.length →
      (∀ t ∈ p.transitions, (List.lookup t.to_context_id s.contexts).isSome) →
      Mgr.replayLoop clock pid s i fuel = none := by
  intro fuel
  induction fuel with
  | zero => intro i s p _ _ _ _ _; rfl
  | succ f ih =>
    intro i s p hp hact hne hilt htos
    unfold Mgr.replayLoop
    rw [hp]
    dsimp only
    rw [dif_pos hilt]
    have hmem := List.get_mem p.transitions i hilt
    obtain ⟨s2, hok, hact2, hq, hrec, hkeys⟩ :=
      switch_nil_preserves s (clock i)
        (p.transitions.get ⟨i, hilt⟩).to_context_id
        ("Replaying path " ++ p.name) (htos _ hmem)
    rw [hok]
    have hp2 := hrec pid p hact hne hp
    refine ih (i + 1) s2 _ hp2 (hact2.trans hact) hne ?_ ?_
    · rw [add_transition_transitions, List.length_append]
      simpa using hilt
    · intro t ht
      rw [hkeys]
      rw [add_transition_transitions] at ht
      rcases List.mem_append.mp ht with hold | hnew
      · exact htos t hold
      · rw [List.mem_singleton.mp hnew]
        exact htos (p.transitions.get ⟨i, hilt⟩) hmem

/-- C10: `replay_path` on a stored path whose recorded targets all exist
terminates whenever the replayed path is not the active recording path,
performing exactly the recorded sequence of switches in order (the loop with
any fuel beyond the transition count returns the straight switch sequence,
which itself succeeds); but invoked on the path that is currently the active
recording path, with at least one transition, every replayed switch appends to
the list being iterated, and the loop exhausts *any* fuel — it never
terminates. -/
theorem replay_termination_dichotomy (clock : Nat → ℚ)
    (s : Mgr.ContextManager) (pid : String) (p : PathRoute)
    (hp : List.lookup pid s.paths = some p)
    (htos : ∀ t ∈ p.transitions,
      (List.lookup t.to_context_id s.contexts).isSome) :
    (s.active_path_id ≠ some pid →
      ∀ fuel, p.transitions.length < fuel →
        Mgr.replay_path clock s pid fuel =
          some (switchSeq clock ("Replaying path " ++ p.name) s 0
            p.transitions) ∧
        ∃ sfin, switchSeq clock ("Replaying path " ++ p.name) s 0
          p.transitions = .ok sfin) ∧
    (s.active_path_id = some pid → pid ≠ "" → p.transitions ≠ [] →
      ∀ fuel, Mgr.replay_path clock s pid fuel = none) := by
  have hnn : ¬((List.lookup pid s.paths).isNone = true) := by
    rw [hp]
    simp
  constructor
  · intro hact fuel hfuel
    constructor
    · unfold Mgr.replay_path
      rw [if_neg hnn]
      have h := replayLoop_inactive clock pid p p.transitions.length 0 s fuel
        (by omega) hp hact htos (by omega)
      simpa using h
    · exact switchSeq_ok clock _ p.transitions 0 s htos
  · intro hact hne hnil fuel
    unfold Mgr.replay_path
    rw [if_neg hnn]
    exact replayLoop_active_diverges clock pid fuel 0 s p hp hact hne
      (List.length_pos.mpr hnil) htos

/-- Fixture: a stored path with one recorded transition, into `ca`. -/
def pathR : PathRoute :=
  mkPathRoute "p" "Trail" "walk" [⟨none, "ca", 0, "r", [], ""⟩] 0 0 [] ""

/-- Fixture: a manager with `pathR` stored and recording idle. -/
def mgrReplay : Mgr.ContextManager :=
  ⟨[], [("ca", ctxA), ("cb", ctxB)], [("p", pathR)], none, none⟩

/-- Fixture: the same manager, but recording *onto* `pathR`. -/
def mgrDiv : Mgr.ContextManager :=
  ⟨[], [("ca", ctxA), ("cb", ctxB)], [("p", pathR)], none, some "p"⟩

/-- C10 witness: with recording idle the replay returns after one switch per
transition; with recording aimed at the replayed path it exhausts its fuel. -/
theorem replay_termination_dichotomy_witness :
    Mgr.replay_path (fun _ => 0) mgrReplay "p" 2 =
      some (switchSeq (fun _ => 0) ("Replaying path " ++ pathR.name)
        mgrReplay 0 pathR.transitions) ∧
    Mgr.replay_path (fun _ => 0) mgrDiv "p" 5 = none := by
  constructor
  · exact ((replay_termination_dichotomy (fun _ => 0) mgrReplay "p" pathR rfl
      (by decide)).1 (by decide) 2 (by decide)).1
  · exact (replay_termination_dichotomy (fun _ => 0) mgrDiv "p" pathR rfl
      (by decide)).2 rfl (by decide) (by decide) 5

/-!
## Claim C1 — serialization round trip

Values "built via the public operations" are captured by inductive
reachability predicates (`NodeBuilt`, `ContextBuilt`, `PathBuilt`) whose
constructors are exactly the public operations named in the property; the
round trip is field equality with set-valued fields (`tags`, `flags`)
compared by membership.
-/

/-- Python set equality for a set modelled as a list: same members. -/
def setEqL (a b : List String) : Prop := ∀ x, x ∈ a ↔ x ∈ b

/-- Field equality of nodes, `flags` compared as sets. -/
def NodeEqS (n1 n2 : ContextualNode) : Prop :=
  n1.uuid = n2.uuid ∧ n1.labels = n2.labels ∧ n1.properties = n2.properties ∧
  n1.access_count = n2.access_count ∧ n1.last_accessed = n2.last_accessed ∧
  n1.relevance_score = n2.relevance_score ∧ n1.notes = n2.notes ∧
  setEqL n1.flags n2.flags ∧ n1.priority = n2.priority ∧
  n1.alt_text = n2.alt_text

/-- Field equality of contexts: node maps pointwise (same keys in order,
`NodeEqS` values), `tags` as sets, every other field equal. -/
def ContextEqS (c1 c2 : Context) : Prop :=
  c1.id = c2.id ∧ c1.name = c2.name ∧ c1.description = c2.description ∧
  List.Forall₂ (fun a b => a.1 = b.1 ∧ NodeEqS a.2 b.2) c1.nodes c2.nodes ∧
  c1.relationships = c2.relationships ∧ c1.focus_nodes = c2.focus_nodes ∧
  c1.created_at = c2.created_at ∧ c1.last_accessed = c2.last_accessed ∧
  c1.priority_scheme = c2.priority_scheme ∧
  c1.custom_priority_function = c2.custom_priority_function ∧
  setEqL c1.tags c2.tags ∧
  c1.accessibility_description = c2.accessibility_description

/-- Field equality of paths: `tags` as sets, every other field equal. -/
def PathEqS (p1 p2 : PathRoute) : Prop :=
  p1.id = p2.id ∧ p1.name = p2.name ∧ p1.description = p2.description ∧
  p1.transitions = p2.transitions ∧ p1.created_at = p2.created_at ∧
  p1.last_updated = p2.last_updated ∧ setEqL p1.tags p2.tags ∧
  p1.accessibility_description = p2.accessibility_description

/-- Nodes reachable by constructing a node (any arguments) and applying its
public mutators. -/
inductive NodeBuilt : ContextualNode → Prop
  | mk (uuid : String) (labels : List String)
      (properties : List (String × String)) (access_count : Nat)
      (last_accessed relevance_score : ℚ) (notes flags : List String)
      (priority : ℚ) (alt_text : String) :
      NodeBuilt (mkContextualNode uuid labels properties access_count
        last_accessed relevance_score notes flags priority alt_text)
  | access {n : ContextualNode} (now : ℚ) :
      NodeBuilt n → NodeBuilt (n.access now)
  | add_note {n : ContextualNode} (note : String) :
      NodeBuilt n → NodeBuilt (n.add_note note)
  | add_flag {n : ContextualNode} (flag : String) :
      NodeBuilt n → NodeBuilt (n.add_flag flag)

theorem ne_empty_of_length_pos {s : String} (h : 0 < s.length) : s ≠ "" := by
  intro he
  rw [he] at h
  exact Nat.lt_irrefl 0 h

theorem append_right_ne_empty (a b : String) (h : 0 < b.length) :
    a ++ b ≠ "" := by
  apply ne_empty_of_length_pos
  rw [String.length_append]
  omega

/-- The non-`alt_text` fields of a constructed node: as given, except
`priority`, which `__post_init__` recomputes to `last_accessed`. -/
theorem mk_node_fields (u : String) (l : List String)
    (p : List (String × String)) (ac : Nat) (la rs : ℚ) (no fl : List String)
    (pr : ℚ) (al : String) :
    (mkContextualNode u l p ac la rs no fl pr al).uuid = u ∧
    (mkContextualNode u l p ac la rs no fl pr al).labels = l ∧
    (mkContextualNode u l p ac la rs no fl pr al).properties = p ∧
    (mkContextualNode u l p ac la rs no fl pr al).access_count = ac ∧
    (mkContextualNode u l p ac la rs no fl pr al).last_accessed = la ∧
    (mkContextualNode u l p ac la rs no fl pr al).relevance_score = rs ∧
    (mkContextualNode u l p ac la rs no fl pr al).notes = no ∧
    (mkContextualNode u l p ac la rs no fl pr al).flags = fl ∧
    (mkContextualNode u l p ac la rs no fl pr al).priority = la := by
  unfold mkContextualNode ContextualNode.update_priority
  dsimp only
  split <;> exact ⟨rfl, rfl, rfl, rfl, rfl, rfl, rfl, rfl, rfl⟩

theorem mk_node_alt_ne (u : String) (l : List String)
    (p : List (String × String)) (ac : Nat) (la rs : ℚ) (no fl : List String)
    (pr : ℚ) (al : String) :
    (mkContextualNode u l p ac la rs no fl pr al).alt_text ≠ "" := by
  unfold mkContextualNode ContextualNode.update_priority
  dsimp only
  split
  · exact append_right_ne_empty _ " node" (by decide)
  · rename_i h
    exact h

theorem mk_node_alt_of_ne (u : String) (l : List String)
    (p : List (String × String)) (ac : Nat) (la rs : ℚ) (no fl : List String)
    (pr : ℚ) (al : String) (h : al ≠ "") :
    (mkContextualNode u l p ac la rs no fl pr al).alt_text = al := by
  unfold mkContextualNode ContextualNode.update_priority
  dsimp only
  split
  · rename_i h0
    exact absurd h0 h
  · rfl

/-- The invariant every reachable node satisfies: `priority` holds the value
of the last (default, RECENCY) recomputation — the `last_accessed` timestamp —
and the accessibility text is nonempty. -/
theorem NodeBuilt_inv {n : ContextualNode} (h : NodeBuilt n) :
    n.priority = n.last_accessed ∧ n.alt_text ≠ "" := by
  induction h with
  | mk u l p ac la rs no fl pr al =>
    exact ⟨(mk_node_fields u l p ac la rs no fl pr al).2.2.2.2.2.2.2.2.trans
        (mk_node_fields u l p ac la rs no fl pr al).2.2.2.2.1.symm,
      mk_node_alt_ne u l p ac la rs no fl pr al⟩
  | access now _ ih =>
    exact ⟨rfl, ih.2⟩
  | add_note note _ ih =>
    exact ih
  | add_flag flag _ ih =>
    unfold ContextualNode.add_flag
    split
    · exact ih
    · exact ih

/-- Round trip of one node under the reachability invariant: `__post_init__`
recomputes `priority` to `last_accessed` — which it already equals — and keeps
the nonempty `alt_text`; `flags` survive as a set. -/
theorem node_roundtrip {n : ContextualNode} (hpl : n.priority = n.last_accessed)
    (halt : n.alt_text ≠ "") :
    NodeEqS (ContextualNode.from_dict n.to_dict) n := by
  unfold ContextualNode.from_dict ContextualNode.to_dict
  dsimp only
  obtain ⟨h1, h2, h3, h4, h5, h6, h7, h8, h9⟩ :=
    mk_node_fields n.uuid n.labels n.properties n.access_count n.last_accessed
      n.relevance_score n.notes [] n.priority n.alt_text
  refine ⟨h1, h2, h3, h4, h5, h6, h7, ?_, ?_, ?_⟩
  · intro x
    simp
  · rw [h9, hpl]
  · exact mk_node_alt_of_ne _ _ _ _ _ _ _ _ _ _ halt

/-- Contexts reachable from `create_context` via the public mutators named in
the round-trip property. -/
inductive ContextBuilt : Context → Prop
  | create (id name description : String) (t1 t2 : ℚ) :
      ContextBuilt (mkContext id name description [] [] [] t1 t2
        .RECENCY none [] "")
  | add_node {c : Context} {n : ContextualNode} :
      ContextBuilt c → NodeBuilt n → ContextBuilt (c.add_node n)
  | add_relationship {c : Context} (source_id target_id rel_type : String)
      (properties : Option (List (String × String))) (rel_id : Option String)
      (fresh_id : String) :
      ContextBuilt c →
      ContextBuilt (c.add_relationship source_id target_id rel_type properties
        rel_id fresh_id)
  | set_focus {c : Context} (ids : List String) :
      ContextBuilt c → ContextBuilt (c.set_focus ids)

theorem mem_insertA {α : Type} (m : List (String × α)) (k : String) (v : α) :
    ∀ kv ∈ insertA m k v, kv = (k, v) ∨ kv ∈ m := by
  induction m with
  | nil =>
    intro kv hkv
    simp [insertA] at hkv
    exact Or.inl hkv
  | cons kv0 rest ih =>
    intro kv hkv
    obtain ⟨k0, v0⟩ := kv0
    by_cases h : k0 = k
    · simp only [insertA, if_pos h] at hkv
      rcases List.mem_cons.mp hkv with h1 | h2
      · exact Or.inl h1
      · exact Or.inr (List.mem_cons_of_mem _ h2)
    · simp only [insertA, if_neg h] at hkv
      rcases List.mem_cons.mp hkv with h1 | h2
      · exact Or.inr (h1 ▸ List.mem_cons_self _ _)
      · rcases ih kv h2 with h3 | h4
        · exact Or.inl h3
        · exact Or.inr (List.mem_cons_of_mem _ h4)

theorem update_acc_nodes (c : Context) :
    (c.update_accessibility_description).nodes = c.nodes := rfl

theorem update_acc_custom (c : Context) :
    (c.update_accessibility_description).custom_priority_function =
      c.custom_priority_function := rfl

theorem update_acc_ne (c : Context) :
    (c.update_accessibility_description).accessibility_description ≠ "" :=
  append_right_ne_empty _ "." (by decide)

theorem describe0_ne (c : Context) : c.describe0 ≠ "" :=
  append_right_ne_empty _ " focus nodes." (by decide)

/-- The fields of a constructed context: as given, except the accessibility
description, which `__post_init__` derives when empty. -/
theorem mkContext_fields (id name description : String)
    (nodes : List (String × ContextualNode))
    (relationships : List (String × List (String × List EdgeRecord)))
    (focus_nodes : List String) (t1 t2 : ℚ) (scheme : PriorityType)
    (fn : Option (ContextualNode → ℚ)) (tags : List String) (acc : String) :
    (mkContext id name description nodes relationships focus_nodes t1 t2
      scheme fn tags acc).id = id ∧
    (mkContext id name description nodes relationships focus_nodes t1 t2
      scheme fn tags acc).name = name ∧
    (mkContext id name description nodes relationships focus_nodes t1 t2
      scheme fn tags acc).description = description ∧
    (mkContext id name description nodes relationships focus_nodes t1 t2
      scheme fn tags acc).nodes = nodes ∧
    (mkContext id name description nodes relationships focus_nodes t1 t2
      scheme fn tags acc).relationships = relationships ∧
    (mkContext id name description nodes relationships focus_nodes t1 t2
      scheme fn tags acc).focus_nodes = focus_nodes ∧
    (mkContext id name description nodes relationships focus_nodes t1 t2
      scheme fn tags acc).created_at = t1 ∧
    (mkContext id name description nodes relationships focus_nodes t1 t2
      scheme fn tags acc).last_accessed = t2 ∧
    (mkContext id name description nodes relationships focus_nodes t1 t2
      scheme fn tags acc).priority_scheme = scheme ∧
    (mkContext id name description nodes relationships focus_nodes t1 t2
      scheme fn tags acc).custom_priority_function = fn ∧
    (mkContext id name description nodes relationships focus_nodes t1 t2
      scheme fn tags acc).tags = tags := by
  unfold mkContext
  dsimp only
  split <;>
    exact ⟨rfl, rfl, rfl, rfl, rfl, rfl, rfl, rfl, rfl, rfl, rfl⟩

theorem mkContext_acc_ne (id name description : String)
    (nodes : List (String × ContextualNode))
    (relationships : List (String × List (String × List EdgeRecord)))
    (focus_nodes : List String) (t1 t2 : ℚ) (scheme : PriorityType)
    (fn : Option (ContextualNode → ℚ)) (tags : List String) (acc : String) :
    (mkContext id name description nodes relationships focus_nodes t1 t2
      scheme fn tags acc).accessibility_description ≠ "" := by
  unfold mkContext
  dsimp only
  split
  · exact describe0_ne _
  · rename_i h
    exact h

theorem mkContext_acc_of_ne (id name description : String)
    (nodes : List (String × ContextualNode))
    (relationships : List (String × List (String × List EdgeRecord)))
    (focus_nodes : List String) (t1 t2 : ℚ) (scheme : PriorityType)
    (fn : Option (ContextualNode → ℚ)) (tags : List String) (acc : String)
    (h : acc ≠ "") :
    (mkContext id name description nodes relationships focus_nodes t1 t2
      scheme fn tags acc).accessibility_description = acc := by
  unfold mkContext
  dsimp only
  split
  · rename_i h0
    exact absurd h0 h
  · rfl

/-- The invariant every reachable context satisfies: all stored nodes satisfy
the node invariant, the accessibility description is nonempty, and no custom
priority function is attached (none of the listed operations sets one). -/
theorem ContextBuilt_inv {c : Context} (h : ContextBuilt c) :
    (∀ kv ∈ c.nodes, kv.2.priority = kv.2.last_accessed ∧ kv.2.alt_text ≠ "") ∧
    c.accessibility_description ≠ "" ∧
    c.custom_priority_function = none := by
  induction h with
  | create id name description t1 t2 =>
    refine ⟨?_, mkContext_acc_ne _ _ _ _ _ _ _ _ _ _ _ _, ?_⟩
    · rw [(mkContext_fields id name description [] [] [] t1 t2
        .RECENCY none [] "").2.2.2.1]
      intro kv hkv
      cases hkv
    · exact (mkContext_fields id name description [] [] [] t1 t2
        .RECENCY none [] "").2.2.2.2.2.2.2.2.2.1
  | add_node hc hn ih =>
    rename_i c n
    unfold Context.add_node
    refine ⟨?_, update_acc_ne _, ?_⟩
    · rw [update_acc_nodes]
      intro kv hkv
      rcases mem_insertA c.nodes n.uuid n kv hkv with h1 | h2
      · rw [h1]
        exact NodeBuilt_inv hn
      · exact ih.1 kv h2
    · rw [update_acc_custom]
      exact ih.2.2
  | add_relationship source_id target_id rel_type properties rel_id fresh_id hc ih =>
    unfold Context.add_relationship
    dsimp only
    refine ⟨?_, update_acc_ne _, ?_⟩
    · rw [update_acc_nodes]
      exact ih.1
    · rw [update_acc_custom]
      exact ih.2.2
  | set_focus ids hc ih =>
    unfold Context.set_focus
    refine ⟨?_, update_acc_ne _, ?_⟩
    · rw [update_acc_nodes]
      exact ih.1
    · rw [update_acc_custom]
      exact ih.2.2

theorem ofName_pname (s : PriorityType) :
    PriorityType.ofName s.pname = some s := by
  cases s <;> rfl

/-- Round trip of one context under the reachability invariant. -/
theorem context_roundtrip {c : Context}
    (hn : ∀ kv ∈ c.nodes,
      kv.2.priority = kv.2.last_accessed ∧ kv.2.alt_text ≠ "")
    (hacc : c.accessibility_description ≠ "")
    (hfn : c.custom_priority_function = none) :
    ∃ c', Context.from_dict c.to_dict = some c' ∧ ContextEqS c' c := by
  unfold Context.from_dict Context.to_dict
  dsimp only
  rw [ofName_pname]
  dsimp only
  obtain ⟨f1, f2, f3, f4, f5, f6, f7, f8, f9, f10, f11⟩ :=
    mkContext_fields c.id c.name c.description [] [] c.focus_nodes c.created_at
      c.last_accessed c.priority_scheme none c.tags.dedup
      c.accessibility_description
  refine ⟨_, rfl, f1, f2, f3, ?_, rfl, f6, f7, f8, f9, f10.trans hfn.symm,
    ?_, ?_⟩
  · rw [List.map_map, List.forall₂_map_left_iff, List.forall₂_same]
    intro kv hkv
    exact ⟨rfl, node_roundtrip (hn kv hkv).1 (hn kv hkv).2⟩
  · rw [f11]
    intro x
    simp
  · exact mkContext_acc_of_ne _ _ _ _ _ _ _ _ _ _ _ _ hacc

/-- Paths reachable from `create_path` via `add_transition`. -/
inductive PathBuilt : PathRoute → Prop
  | create (id name description : String) (t1 t2 : ℚ) :
      PathBuilt (mkPathRoute id name description [] t1 t2 [] "")
  | add_transition {p : PathRoute} (now : ℚ) (t : ContextTransition) :
      PathBuilt p → PathBuilt (p.add_transition now t)

theorem describePath_ne (p : PathRoute) : p.describe ≠ "" :=
  append_right_ne_empty _ " transitions." (by decide)

theorem mkPath_fields (id name description : String)
    (transitions : List ContextTransition) (t1 t2 : ℚ) (tags : List String)
    (acc : String) :
    (mkPathRoute id name description transitions t1 t2 tags acc).id = id ∧
    (mkPathRoute id name description transitions t1 t2 tags acc).name = name ∧
    (mkPathRoute id name description transitions t1 t2 tags acc).description =
      description ∧
    (mkPathRoute id name description transitions t1 t2 tags acc).transitions =
      transitions ∧
    (mkPathRoute id name description transitions t1 t2 tags acc).created_at = t1 ∧
    (mkPathRoute id name description transitions t1 t2 tags acc).last_updated = t2 ∧
    (mkPathRoute id name description transitions t1 t2 tags acc).tags = tags := by
  unfold mkPathRoute
  dsimp only
  split <;> exact ⟨rfl, rfl, rfl, rfl, rfl, rfl, rfl⟩

theorem mkPath_acc_ne (id name description : String)
    (transitions : List ContextTransition) (t1 t2 : ℚ) (tags : List String)
    (acc : String) :
    (mkPathRoute id name description transitions t1 t2 tags
      acc).accessibility_description ≠ "" := by
  unfold mkPathRoute
  dsimp only
  split
  · exact describePath_ne _
  · rename_i h
    exact h

theorem mkPath_acc_of_ne (id name description : String)
    (transitions : List ContextTransition) (t1 t2 : ℚ) (tags : List String)
    (acc : String) (h : acc ≠ "") :
    (mkPathRoute id name description transitions t1 t2 tags
      acc).accessibility_description = acc := by
  unfold mkPathRoute
  dsimp only
  split
  · rename_i h0
    exact absurd h0 h
  · rfl

theorem PathBuilt_inv {p : PathRoute} (h : PathBuilt p) :
    p.accessibility_description ≠ "" := by
  induction h with
  | create id name description t1 t2 => exact mkPath_acc_ne _ _ _ _ _ _ _ _
  | add_transition now t _ _ =>
    exact describePath_ne _

/-- Round trip of one path under the reachability invariant: a transition's
dictionary is a field-for-field copy, so the list is reconstructed exactly. -/
theorem path_roundtrip {p : PathRoute}
    (hacc : p.accessibility_description ≠ "") :
    PathEqS (PathRoute.from_dict p.to_dict) p := by
  unfold PathRoute.from_dict PathRoute.to_dict
  dsimp only
  obtain ⟨f1, f2, f3, f4, f5, f6, f7⟩ :=
    mkPath_fields p.id p.name p.description [] p.created_at p.last_updated
      p.tags.dedup p.accessibility_description
  refine ⟨f1, f2, f3, ?_, f5, f6, ?_, ?_⟩
  · rw [f4]
    simp only [List.map_map, List.nil_append]
    have hid : (ContextTransition.from_dict ∘ ContextTransition.to_dict) =
        id := rfl
    rw [hid, List.map_id]
  · rw [f7]
    intro x
    simp
  · exact mkPath_acc_of_ne _ _ _ _ _ _ _ _ hacc

/-- C1: every Context and every PathRoute reachable via the public operations
(`create_context`/`add_node`/`add_relationship`/`set_focus`,
`create_path`/`add_transition`) survives `from_dict ∘ to_dict` field-equal:
set-valued fields (`tags`, `flags`) as sets, every other field — including
each contained node's priority, access_count, last_accessed, relevance_score,
notes and alt_text — exactly. -/
theorem context_path_roundtrip :
    (∀ c : Context, ContextBuilt c →
      ∃ c', Context.from_dict c.to_dict = some c' ∧ ContextEqS c' c) ∧
    (∀ p : PathRoute, PathBuilt p →
      PathEqS (PathRoute.from_dict p.to_dict) p) := by
  constructor
  · intro c hc
    obtain ⟨h1, h2, h3⟩ := ContextBuilt_inv hc
    exact context_roundtrip h1 h2 h3
  · intro p hp
    exact path_roundtrip (PathBuilt_inv hp)

/-- Fixture: a context built by the public operations for the C1 witness. -/
def ctxRt : Context :=
  Context.set_focus
    (Context.add_node
      (mkContext "i" "Notes" "demo" [] [] [] 1 2 .RECENCY none [] "")
      (mkContextualNode "u" ["Doc"] [("name", "n")] 0 3 0 ["note"] ["f"] 0 ""))
    ["u"]

/-- Fixture: a path built by the public operations for the C1 witness. -/
def pathRt : PathRoute :=
  PathRoute.add_transition (mkPathRoute "p" "P" "d" [] 1 2 [] "") 3
    ⟨none, "i", 3, "r", [], ""⟩

/-- C1 witness: the concrete built context deserializes successfully and the
concrete built path round-trips field-equal. -/
theorem context_path_roundtrip_witness :
    (Context.from_dict ctxRt.to_dict).isSome = true ∧
    PathEqS (PathRoute.from_dict pathRt.to_dict) pathRt := by
  constructor
  · obtain ⟨c', hc', -⟩ := context_path_roundtrip.1 ctxRt
      (ContextBuilt.set_focus ["u"]
        (ContextBuilt.add_node (ContextBuilt.create "i" "Notes" "demo" 1 2)
          (NodeBuilt.mk "u" ["Doc"] [("name", "n")] 0 3 0 ["note"] ["f"] 0 "")))
    rw [hc']
    rfl
  · exact context_path_roundtrip.2 pathRt
      (PathBuilt.add_transition 3 ⟨none, "i", 3, "r", [], ""⟩
        (PathBuilt.create "p" "P" "d" 1 2))
